import Mathlib

/-!
Shallow embedding of `cpp/watchdog/server/src/UidProcStatsCollector.cpp`
(per-UID process statistics collector) and proofs about its parsing,
saturating arithmetic, snapshot folding and delta computation.

Strings are modelled as `List Char` (`Str`).  Unsigned 64-bit counters are
modelled as `Nat` with an explicit `% 2^64` (`wrap64`) wherever the C++
performs wrapping `uint64_t` arithmetic; `int64_t` values parsed by
`ParseInt` are modelled as `Int`.  `std::unordered_map` is modelled as an
association list (`alookup` / `setA`); iteration order is the list order.
`android::base::Split(s, delims)` splits at every occurrence of any
character of `delims` (it uses `find_first_of`), which `cppSplit` mirrors.
-/

set_option maxHeartbeats 1000000

namespace UidProc

abbrev Str := List Char

/-- `constexpr uint64_t kMaxUint64 = std::numeric_limits<uint64_t>::max();` -/
def kMaxUint64 : Nat := 18446744073709551615

/-- Wrapping `uint64_t` arithmetic. -/
def wrap64 (n : Nat) : Nat := n % 18446744073709551616

/-- `addUint64` (UidProcStatsCollector.cpp line 69):
`return (kMaxUint64 - l) > r ? (l + r) : kMaxUint64;`
(`kMaxUint64 - l` is `uint64_t` subtraction; for `l ≤ kMaxUint64` it agrees
with truncated `Nat` subtraction). -/
def addUint64 (l r : Nat) : Nat :=
  if kMaxUint64 - l > r then l + r else kMaxUint64

/-- The local lambda `mul` of `readTimeInStateFile` (lines 248-253):
if either operand is 0 the result is 0, else
`return (kMaxUint64 / r) > l ? (l * r) : kMaxUint64;`. -/
def mulUint64 (l r : Nat) : Nat :=
  if l = 0 ∨ r = 0 then 0
  else if kMaxUint64 / r > l then l * r else kMaxUint64

/-- Association-list lookup, modelling `std::unordered_map::find`. -/
def alookup {κ α : Type} [DecidableEq κ] : List (κ × α) → κ → Option α
  | [], _ => none
  | e :: rest, k => if e.1 = k then some e.2 else alookup rest k

/-- Association-list insert-or-replace, modelling `map[k] = v`. -/
def setA {κ α : Type} [DecidableEq κ] : List (κ × α) → κ → α → List (κ × α)
  | [], k, v => [(k, v)]
  | e :: rest, k, v => if e.1 = k then (k, v) :: rest else e :: setA rest k v

/-- Worker for `cppSplit`; `acc` holds the current chunk reversed. -/
def cppSplitAux (ds : Str) : Str → Str → List Str
  | [], acc => [acc.reverse]
  | c :: rest, acc =>
      if c ∈ ds then acc.reverse :: cppSplitAux ds rest []
      else cppSplitAux ds rest (c :: acc)

/-- `android::base::Split(s, delimiters)`: the string is split at each
occurrence of any character of `delimiters` (`find_first_of`), keeping
empty chunks.  Never returns an empty list. -/
def cppSplit (s : Str) (ds : Str) : List Str := cppSplitAux ds s []

/-- Join with a single space; inverse of splitting on `' '`. -/
def joinSp : List Str → Str
  | [] => []
  | [x] => x
  | x :: xs => x ++ ' ' :: joinSp xs

/-- `pat` is a prefix of `s`. -/
def startsWithStr : Str → Str → Bool
  | [], _ => true
  | _ :: _, [] => false
  | p :: ps, c :: cs => p = c && startsWithStr ps cs

/-- `s.find(pat) != npos`: `pat` occurs as a contiguous substring of `s`. -/
def containsStr (pat : Str) : Str → Bool
  | [] => startsWithStr pat []
  | c :: cs => startsWithStr pat (c :: cs) || containsStr pat cs

/-- C `isspace` characters, as used by `android::base::Trim`. -/
def isWhiteCh (c : Char) : Bool :=
  c = ' ' || c = '\t' || c = '\n' || c = '\x0b' || c = '\x0c' || c = '\r'

/-- `android::base::Trim`: strip leading and trailing whitespace. -/
def trimStr (s : Str) : Str :=
  ((s.dropWhile isWhiteCh).reverse.dropWhile isWhiteCh).reverse

def isDigitCh (c : Char) : Bool := '0' ≤ c && c ≤ '9'

def digitsVal (s : Str) : Nat :=
  s.foldl (fun a c => a * 10 + (c.toNat - '0'.toNat)) 0

/-- Decimal fragment of `android::base::ParseUint<uint64_t>`: non-empty
all-digit strings parse to their value when it fits in `uint64_t`
(hex `0x` inputs never occur in the modelled files). -/
def parseUint64Str (s : Str) : Option Nat :=
  if s ≠ [] ∧ s.all isDigitCh then
    if digitsVal s ≤ kMaxUint64 then some (digitsVal s) else none
  else none

/-- Decimal fragment of `android::base::ParseInt<int64_t>`: an optional
leading `'-'` followed by digits, within the `int64_t` range. -/
def parseInt64Str (s : Str) : Option Int :=
  match s with
  | '-' :: rest =>
      if rest ≠ [] ∧ rest.all isDigitCh then
        if (digitsVal rest : Int) ≤ 2 ^ 63 then some (-(digitsVal rest : Int)) else none
      else none
  | _ =>
      if s ≠ [] ∧ s.all isDigitCh then
        if (digitsVal s : Int) ≤ 2 ^ 63 - 1 then some (digitsVal s : Int) else none
      else none

/-- `EndsWith(f, ")")` for a one-character suffix: the last character is `c`. -/
def lastIs (s : Str) (c : Char) : Bool := s.getLast? = some c

/-- `std::string::front()`; on an empty string the C++ call violates the
precondition (`!empty()`), libstdc++/libc++ read the NUL terminator. -/
def cppFront (s : Str) : Char := s.headD '\x00'

/-- `std::string::back()`; unreachable for the empty string in
`parsePidStatLine` because the `front` test short-circuits first. -/
def cppBack (s : Str) : Char := (s.getLast?).getD '\x00'

/-- `int64_t` → `uint64_t` conversion (mod 2^64). -/
def i64toU64 (i : Int) : Nat := (i % (18446744073709551616 : Int)).toNat

/-- `uid_t` (unsigned 32-bit) conversion of a parsed `int64_t`. -/
def toUidT (i : Int) : Nat := (i % (4294967296 : Int)).toNat

/-- `pid_t` (signed 32-bit) conversion of a parsed `int64_t`. -/
def toPidT (i : Int) : Int := (i + 2147483648) % 4294967296 - 2147483648

/-- `struct PidStat` fields touched by `parsePidStatLine`.  `majorFaults`
is `uint64_t`; `cpuTimeMillis` and `startTimeMillis` are parsed with
`ParseInt` into signed 64-bit fields. -/
structure PidStat where
  comm : Str := []
  state : Str := []
  majorFaults : Nat := 0
  cpuTimeMillis : Int := 0
  startTimeMillis : Int := 0
deriving DecidableEq

/-- The comm-accumulation loop of `parsePidStatLine` (lines 95-103):
starting at field index 1, append fields (separated by `' '`) until one
ends with `')'`; on break, `commEndOffset = i - 1`.  If no field ends with
`')'` the offset keeps its initial value 0. -/
def commLoop : List Str → Nat → Str → Str × Nat
  | [], _, acc => (acc, 0)
  | f :: rest, i, acc =>
      if lastIs f ')' then (acc ++ f, i - 1)
      else commLoop rest (i + 1) (acc ++ f ++ [' '])

/-- The comm string and `commEndOffset` at the bracket-validation point of
`parsePidStatLine` (line 105), before `comm.front()` / `comm.back()` are
read. -/
def commFieldsOf (line : Str) : Str × Nat :=
  commLoop ((cppSplit line [' ']).drop 1) 1 []

/-- `parsePidStatLine` (lines 86-124).  The C++ evaluates
`comm.front() != '(' || comm.back() != ')'` with short-circuiting; for an
empty comm the `front()` read is modelled by `cppFront` returning NUL. -/
def parsePidStatLine (line : Str) : Option PidStat :=
  let fields := cppSplit line [' ']
  let p := commFieldsOf line
  let comm := p.1
  let off := p.2
  if cppFront comm ≠ '(' then none
  else if cppBack comm ≠ ')' then none
  else if fields.length < 22 + off then none
  else
    match parseUint64Str (fields.getD (11 + off) []),
          parseInt64Str (fields.getD (13 + off) []),
          parseInt64Str (fields.getD (14 + off) []),
          parseInt64Str (fields.getD (21 + off) []) with
    | some mf, some ut, some st, some stt =>
        some { comm := (comm.drop 1).dropLast,
               state := fields.getD (2 + off) [],
               majorFaults := mf,
               cpuTimeMillis := ut + st,
               startTimeMillis := stt }
    | _, _, _, _ => none

/-- Abnormal outcomes of a reader.  `readError` (`READ_ERROR = 0`,
default, fatal parse error) and `readWarning` (`READ_WARNING = 1`,
file/directory disappeared) are the `ReadStatus` codes carried by a
returned `Result`.  `thrownOutOfRange` is not a `Result` code: it models
the `std::out_of_range` exception escaping the
`lines[i].substr(key.length() + delimiter.length())` call of
`readKeyValueFile` (line 190) when that position exceeds the line length.
No caller catches it, so every layer of the model propagates it
unchanged, mirroring the C++ stack unwinding. -/
inductive RCode where
  | readError
  | readWarning
  | thrownOutOfRange
deriving DecidableEq

abbrev Res (α : Type) := Except RCode α

/-- `readPidStatFile` (lines 126-142); `content = none` models a failed
`ReadFileToString` (the file disappeared → `READ_WARNING`). -/
def readPidStatFile (content : Option Str) (millisPerClockTick : Int) : Res PidStat :=
  match content with
  | none => .error .readWarning
  | some buffer =>
      let lines := cppSplit buffer ['\n']
      if ¬(lines.length = 1 ∨ (lines.length = 2 ∧ lines.getD 1 [] = [])) then
        .error .readError
      else
        match parsePidStatLine (lines.getD 0 []) with
        | none => .error .readError
        | some ps =>
            .ok { ps with startTimeMillis := ps.startTimeMillis * millisPerClockTick,
                          cpuTimeMillis := ps.cpuTimeMillis * millisPerClockTick }

/-- Loop body of `getLinesWithTags` (lines 144-168): scan the lines in
order while some tag is still unfound; keep a line iff it contains a
not-yet-found tag (all tags found on it are erased). -/
def glwtLoop : List Str → List Str → List Str
  | [], _ => []
  | line :: rest, nf =>
      if nf.isEmpty then []
      else
        let nf2 := nf.filter (fun t => ¬ containsStr t line)
        if nf2.length ≠ nf.length then line :: glwtLoop rest nf2
        else glwtLoop rest nf2

/-- `getLinesWithTags buffer tags`: the buffer is cut at each `'\n'`
(the final segment is processed even when it is empty). -/
def getLinesWithTags (buffer : Str) (tags : List Str) : List Str :=
  glwtLoop (cppSplit buffer ['\n']) tags

/-- One iteration of the loop of `readKeyValueFile` (lines 179-196):
empty lines are skipped; the line is split at every character of
`delimiter` (`Split` semantics); fewer than 2 chunks → `READ_ERROR`;
`key = elements[0]`; then
`value = Trim(line.substr(key.length + delimiter.length))` — when
`key.length + delimiter.length` exceeds the line length,
`std::string::substr` throws `std::out_of_range` (modelled by
`thrownOutOfRange`; the position equal to the length is in range and
yields the empty string); a duplicate key → `READ_ERROR`. -/
def processKVLine (delim : Str) (m : List (Str × Str)) (line : Str) : Res (List (Str × Str)) :=
  if line = [] then .ok m
  else
    let elements := cppSplit line delim
    if elements.length < 2 then .error .readError
    else
      let key := elements.getD 0 []
      if line.length < key.length + delim.length then .error .thrownOutOfRange
      else
        let value := trimStr (line.drop (key.length + delim.length))
        if (alookup m key).isSome then .error .readError
        else .ok (m ++ [(key, value)])

def readKVLines (delim : Str) (lines : List Str) : Res (List (Str × Str)) :=
  lines.foldlM (processKVLine delim) []

/-- `readKeyValueFile` (lines 170-198). -/
def readKeyValueFile (content : Option Str) (delim : Str) (tags : List Str) :
    Res (List (Str × Str)) :=
  match content with
  | none => .error .readWarning
  | some buffer => readKVLines delim (getLinesWithTags buffer tags)

/-- `readPidStatusFile` (lines 209-228): delimiter `":\t"`, tags
`{"Uid", "Tgid"}`; the `Uid` value is tab-split and its first chunk
parsed; returns `(uid, tgid)` after the `uid_t`/`pid_t` conversions. -/
def readPidStatusFile (content : Option Str) : Res (Nat × Int) :=
  match readKeyValueFile content [':', '\t'] ["Uid".toList, "Tgid".toList] with
  | .error c => .error c
  | .ok contents =>
      if contents = [] then .error .readError
      else
        match alookup contents "Uid".toList with
        | none => .error .readError
        | some uidVal =>
            match parseInt64Str ((cppSplit uidVal ['\t']).getD 0 []) with
            | none => .error .readError
            | some uid =>
                match alookup contents "Tgid".toList with
                | none => .error .readError
                | some tgidVal =>
                    match parseInt64Str tgidVal with
                    | none => .error .readError
                    | some tgid => .ok (toUidT uid, toPidT tgid)

/-- One body line of `readTimeInStateFile` (lines 263-280): blank lines
and `cpu...` headers are skipped; otherwise the line is space-split,
needs ≥ 2 chunks, `freqKHz` and `Trim(elements[1])` must parse, and the
accumulator becomes `addUint64 acc (mul freqKHz clockTicks)`. -/
def tisLine (acc : Nat) (line : Str) : Res Nat :=
  if line = [] || startsWithStr "cpu".toList line then .ok acc
  else
    let elements := cppSplit line [' ']
    if elements.length < 2 then .error .readError
    else
      match parseUint64Str (elements.getD 0 []), parseUint64Str (trimStr (elements.getD 1 [])) with
      | some freqKHz, some clockTicks => .ok (addUint64 acc (mulUint64 freqKHz clockTicks))
      | _, _ => .error .readError

/-- `readTimeInStateFile` (lines 247-285); the final result is
`mul oneTenthCpuCycles cyclesPerKHzClockTicks`. -/
def readTimeInStateFile (content : Option Str) (cyclesPerKHzClockTick : Nat) : Res Nat :=
  match content with
  | none => .error .readWarning
  | some buffer =>
      match (cppSplit buffer ['\n']).foldlM tisLine 0 with
      | .error c => .error c
      | .ok oneTenth => .ok (mulUint64 oneTenth cyclesPerKHzClockTick)

/-- `readPidStatmFile` (lines 294-313): one line (plus an optional
trailing empty line), space-split into at least **6** fields; fields 1
and 2 are `rss_pages` and `shared_pages`. -/
def readPidStatmFile (content : Option Str) : Res (Nat × Nat) :=
  match content with
  | none => .error .readWarning
  | some buffer =>
      let lines := cppSplit buffer ['\n']
      if ¬(lines.length = 1 ∨ (lines.length = 2 ∧ lines.getD 1 [] = [])) then
        .error .readError
      else
        let fields := cppSplit (lines.getD 0 []) [' ']
        if fields.length < 6 then .error .readError
        else
          match parseUint64Str (fields.getD 1 []), parseUint64Str (fields.getD 2 []) with
          | some rssPages, some sharedPages => .ok (rssPages, sharedPages)
          | _, _ => .error .readError

/-- The statm fallback arithmetic of `readProcessStatsLocked`
(lines 594-598): `rssKb = rssPages * pageSizeKb` (`uint64_t`, wrapping);
`ussKb = rssKb - sharedPages * pageSizeKb` (wrapping subtraction);
`ussKb = ussKb < rssKb ? ussKb : 0`.  Returns `(rssKb, ussKb)`. -/
def statmMemory (rssPages sharedPages pageSizeKb : Nat) : Nat × Nat :=
  let rssKb := wrap64 (rssPages * pageSizeKb)
  let sharedKb := wrap64 (sharedPages * pageSizeKb)
  let ussKb := wrap64 (rssKb + 18446744073709551616 - sharedKb)
  (rssKb, if ussKb < rssKb then ussKb else 0)

/-- `struct ProcessStats` (all counter fields `uint64_t` except the two
`int` task counts, modelled as `Nat`; task-count `int` overflow is not
modelled). -/
structure ProcessStats where
  comm : Str := []
  startTimeMillis : Nat := 0
  cpuTimeMillis : Nat := 0
  totalCpuCycles : Nat := 0
  totalMajorFaults : Nat := 0
  totalTasksCount : Nat := 0
  ioBlockedTasksCount : Nat := 0
  cpuCyclesByTid : List (Nat × Nat) := []
  rssKb : Nat := 0
  pssKb : Nat := 0
  ussKb : Nat := 0
  swapPssKb : Nat := 0
deriving DecidableEq

/-- `struct UidProcStats`. -/
structure UidProcStats where
  cpuTimeMillis : Nat := 0
  cpuCycles : Nat := 0
  totalMajorFaults : Nat := 0
  totalTasksCount : Nat := 0
  ioBlockedTasksCount : Nat := 0
  totalRssKb : Nat := 0
  totalPssKb : Nat := 0
  processStatsByPid : List (Nat × ProcessStats) := []
deriving DecidableEq

/-- A snapshot: UID → UidProcStats. -/
abbrev Snapshot := List (Nat × UidProcStats)

/-- Per-thread delta cycles (lines 466-472): the delta starts as the
current thread cycles and is reduced by the previous cycles only when the
TID is present in the previous map with a value `≤` the current one. -/
def deltaTid (prevTids : List (Nat × Nat)) (tid c : Nat) : Nat :=
  match alookup prevTids tid with
  | some p => if p ≤ c then c - p else c
  | none => c

/-- Per-process delta (lines 451-477): `deltaProcessStats` starts as a
copy of the current `ProcessStats`; when the previous snapshot holds the
same PID with the same `startTimeMillis`, `cpuTimeMillis` and
`totalMajorFaults` are reduced (only when `previous ≤ current`) and
`totalCpuCycles`/`cpuCyclesByTid` are recomputed from per-TID deltas with
saturating summation. -/
def deltaProcessStats (prevMap : List (Nat × ProcessStats)) (pid : Nat)
    (cur : ProcessStats) : ProcessStats :=
  match alookup prevMap pid with
  | some prev =>
      if prev.startTimeMillis = cur.startTimeMillis then
        let dtids := cur.cpuCyclesByTid.map (fun tc => (tc.1, deltaTid prev.cpuCyclesByTid tc.1 tc.2))
        { cur with
          cpuTimeMillis :=
            if prev.cpuTimeMillis ≤ cur.cpuTimeMillis then
              cur.cpuTimeMillis - prev.cpuTimeMillis
            else cur.cpuTimeMillis,
          totalMajorFaults :=
            if prev.totalMajorFaults ≤ cur.totalMajorFaults then
              cur.totalMajorFaults - prev.totalMajorFaults
            else cur.totalMajorFaults,
          totalCpuCycles := dtids.foldl (fun a tc => addUint64 a tc.2) 0,
          cpuCyclesByTid := dtids }
      else cur
  | none => cur

/-- Folding one process delta into the per-UID delta (lines 478-482):
`cpuTimeMillis` and `totalMajorFaults` use plain wrapping `uint64_t`
`+=`; `cpuCycles` uses `addUint64`; the process delta is stored under its
PID. -/
def deltaFoldStep (prevMap : List (Nat × ProcessStats)) (acc : UidProcStats)
    (e : Nat × ProcessStats) : UidProcStats :=
  let d := deltaProcessStats prevMap e.1 e.2
  { acc with
    cpuTimeMillis := wrap64 (acc.cpuTimeMillis + d.cpuTimeMillis),
    cpuCycles := addUint64 acc.cpuCycles d.totalCpuCycles,
    totalMajorFaults := wrap64 (acc.totalMajorFaults + d.totalMajorFaults),
    processStatsByPid := acc.processStatsByPid ++ [(e.1, d)] }

/-- Per-UID delta (lines 443-484): a fresh `UidProcStats` takes the
current instantaneous fields (`totalTasksCount`, `ioBlockedTasksCount`,
`totalRssKb`, `totalPssKb`), then every current process is folded in. -/
def deltaUidStats (prevU curU : UidProcStats) : UidProcStats :=
  curU.processStatsByPid.foldl (deltaFoldStep prevU.processStatsByPid)
    { cpuTimeMillis := 0, cpuCycles := 0, totalMajorFaults := 0,
      totalTasksCount := curU.totalTasksCount,
      ioBlockedTasksCount := curU.ioBlockedTasksCount,
      totalRssKb := curU.totalRssKb,
      totalPssKb := curU.totalPssKb,
      processStatsByPid := [] }

/-- Delta for one UID of the current snapshot (lines 437-448): a UID
absent from the previous snapshot keeps its current absolute value. -/
def deltaForUid (latest : Snapshot) (uid : Nat) (curU : UidProcStats) : UidProcStats :=
  match alookup latest uid with
  | none => curU
  | some prevU => deltaUidStats prevU curU

/-- The delta snapshot computed inside `collect()` (lines 436-485),
keyed by the current snapshot's UIDs. -/
def computeDelta (latest cur : Snapshot) : Snapshot :=
  cur.map (fun e => (e.1, deltaForUid latest e.1 e.2))

/-- Well-formed `ProcessStats` (spec §3 invariants): counters are in the
`uint64_t` range and `total_cpu_cycles` is the saturated sum of
`cpu_cycles_by_tid` — which is how `readProcessStatsLocked` builds them. -/
abbrev pswf (ps : ProcessStats) : Prop :=
  ps.cpuTimeMillis ≤ kMaxUint64 ∧ ps.totalMajorFaults ≤ kMaxUint64 ∧
  (∀ tc ∈ ps.cpuCyclesByTid, tc.2 ≤ kMaxUint64) ∧
  ps.totalCpuCycles = ps.cpuCyclesByTid.foldl (fun a tc => addUint64 a tc.2) 0

/-- Well-formed `UidProcStats` (spec §3 invariants): each aggregate
counter equals the saturated sum of the same field across
`process_stats_by_pid`. -/
abbrev uwf (u : UidProcStats) : Prop :=
  (∀ e ∈ u.processStatsByPid, pswf e.2) ∧
  u.cpuTimeMillis = u.processStatsByPid.foldl (fun a e => addUint64 a e.2.cpuTimeMillis) 0 ∧
  u.cpuCycles = u.processStatsByPid.foldl (fun a e => addUint64 a e.2.totalCpuCycles) 0 ∧
  u.totalMajorFaults =
    u.processStatsByPid.foldl (fun a e => addUint64 a e.2.totalMajorFaults) 0

/-- Well-formed snapshot. -/
abbrev snapwf (s : Snapshot) : Prop := ∀ e ∈ s, uwf e.2

/-- Pointwise domination of per-TID cycle maps: same length, same key at
every index, and each delta value at most the current value. -/
abbrev tidLe (d c : List (Nat × Nat)) : Prop :=
  d.length = c.length ∧
  ∀ i, i < d.length →
    (d.getD i (0, 0)).1 = (c.getD i (0, 0)).1 ∧
    (d.getD i (0, 0)).2 ≤ (c.getD i (0, 0)).2

/-- Folding one successfully read process into the snapshot under
construction (`readUidProcStatsLocked`, lines 512-525): plain wrapping
`uint64_t` `+=` for `cpuTimeMillis`, `totalMajorFaults`, `totalRssKb`,
`totalPssKb`, plain `int` `+=` for the task counts, and `addUint64` for
`cpuCycles`. -/
def accumulateProcess (snap : Snapshot) (pid uid : Nat) (ps : ProcessStats) : Snapshot :=
  let u := (alookup snap uid).getD {}
  setA snap uid
    { cpuTimeMillis := wrap64 (u.cpuTimeMillis + ps.cpuTimeMillis),
      cpuCycles := addUint64 u.cpuCycles ps.totalCpuCycles,
      totalMajorFaults := wrap64 (u.totalMajorFaults + ps.totalMajorFaults),
      totalTasksCount := u.totalTasksCount + ps.totalTasksCount,
      ioBlockedTasksCount := u.ioBlockedTasksCount + ps.ioBlockedTasksCount,
      totalRssKb := wrap64 (u.totalRssKb + ps.rssKb),
      totalPssKb := wrap64 (u.totalPssKb + ps.pssKb),
      processStatsByPid := setA u.processStatsByPid pid ps }

/-- The accumulation loop of `readUidProcStatsLocked` restricted to a
list of successfully read `(pid, uid, stats)` results. -/
def readResultsFold (rs : List (Nat × Nat × ProcessStats)) : Snapshot :=
  rs.foldl (fun s r => accumulateProcess s r.1 r.2.1 r.2.2) []

/-- `ParseInt(d_name, &pid)` for a directory-entry name; negative names
never denote live PIDs and are not modelled. -/
def parsePidNat (name : Str) : Option Nat :=
  if name ≠ [] ∧ name.all isDigitCh then some (digitsVal name) else none

/-- Files of one `/proc/<pid>/task/<tid>` directory; `none` models a
file whose `ReadFileToString` fails (entry disappeared). -/
structure TidFiles where
  stat : Option Str := none
  timeInState : Option Str := none

/-- Files and directory entries of one `/proc/<pid>` directory.
`smapsRollup` is the result of the opaque external collaborator
`SmapsOrRollupFromFile` as `(pss, rss, uss, swapPss)` in KiB, `none` when
it fails. -/
structure PidFiles where
  stat : Option Str := none
  status : Option Str := none
  statm : Option Str := none
  smapsRollup : Option (Nat × Nat × Nat × Nat) := none
  taskDirExists : Bool := false
  taskEntries : List (Str × Bool) := []
  taskFiles : List (Nat × TidFiles) := []

/-- The modelled process filesystem below the collector's root path:
directory entries `(d_name, d_type == DT_DIR)` and per-PID files. -/
structure ProcFS where
  rootExists : Bool := true
  entries : List (Str × Bool) := []
  pids : List (Nat × PidFiles) := []

/-- Construction-time configuration and capability flags of the
collector (`mIsEnabled`, `mIsTimeInStateEnabled`, … are all read under
the same mutex during `collect`). -/
structure CollectorCfg where
  isEnabled : Bool := true
  isMemoryProfilingEnabled : Bool := false
  isSmapsRollupSupported : Bool := false
  isTimeInStateEnabled : Bool := false
  millisPerClockTick : Int := 10
  cyclesPerKHzClockTick : Nat := 10
  pageSizeKb : Nat := 4

def getPidFiles (fs : ProcFS) (pid : Nat) : PidFiles :=
  (alookup fs.pids pid).getD {}

def getTidFiles (pf : PidFiles) (tid : Nat) : TidFiles :=
  (alookup pf.taskFiles tid).getD {}

/-- `readSmapsRollup` (lines 667-681): returns `false` without touching
the stats when rollup is unsupported or the collaborator fails; otherwise
it sets all four memory fields and reports success iff `pss`, `rss` and
`uss` are all positive. -/
def readSmapsRollup (cfg : CollectorCfg) (smaps : Option (Nat × Nat × Nat × Nat))
    (ps : ProcessStats) : ProcessStats × Bool :=
  if ¬cfg.isSmapsRollupSupported then (ps, false)
  else
    match smaps with
    | none => (ps, false)
    | some m =>
        ({ ps with pssKb := m.1, rssKb := m.2.1, ussKb := m.2.2.1, swapPssKb := m.2.2.2 },
         m.1 > 0 && m.2.1 > 0 && m.2.2.1 > 0)

/-- One iteration of the task-directory loop of `readProcessStatsLocked`
(lines 606-653).  Non-directory or non-numeric entries are skipped; for
`tid ≠ pid` the thread `stat` is read (warning → `continue`, error →
abort); then, when time-in-state collection is enabled, the thread's
`time_in_state` is read (warning or non-positive cycles → `continue`,
error → abort; positive cycles are saturating-added and recorded). -/
def threadStep (cfg : CollectorCfg) (pf : PidFiles) (pid : Nat)
    (acc : ProcessStats) (entry : Str × Bool) : Res ProcessStats :=
  if ¬entry.2 then .ok acc
  else
    match parsePidNat entry.1 with
    | none => .ok acc
    | some tid =>
        let afterStat : Res ProcessStats :=
          if tid ≠ pid then
            match readPidStatFile (getTidFiles pf tid).stat cfg.millisPerClockTick with
            | .error .readError => .error .readError
            | .error .readWarning => .error .readWarning
            | .error .thrownOutOfRange => .error .thrownOutOfRange
            | .ok tidStat =>
                .ok { acc with
                      ioBlockedTasksCount :=
                        acc.ioBlockedTasksCount + (if tidStat.state = "D".toList then 1 else 0),
                      totalTasksCount := acc.totalTasksCount + 1 }
          else .ok acc
        match afterStat with
        | .error .readError => .error .readError
        | .error .readWarning => .ok acc
        | .error .thrownOutOfRange => .error .thrownOutOfRange
        | .ok acc2 =>
            if ¬cfg.isTimeInStateEnabled then .ok acc2
            else
              match readTimeInStateFile (getTidFiles pf tid).timeInState
                      cfg.cyclesPerKHzClockTick with
              | .error .readError => .error .readError
              | .error .readWarning => .ok acc2
              | .error .thrownOutOfRange => .error .thrownOutOfRange
              | .ok cycles =>
                  if cycles = 0 then .ok acc2
                  else
                    .ok { acc2 with
                          totalCpuCycles := addUint64 acc2.totalCpuCycles cycles,
                          cpuCyclesByTid := setA acc2.cpuCyclesByTid tid cycles }

/-- `readProcessStatsLocked` (lines 530-655): read the process `stat`,
resolve `(uid, tgid)` from `status` (attempting UID recovery from the
previous snapshot on a `status` warning), skip non-leader or unresolved
PIDs with a warning, fill the memory fields (smaps-rollup with statm
fallback when memory profiling is on), then scan the task directory. -/
def readProcessStats (cfg : CollectorCfg) (latest : Snapshot) (pid : Nat)
    (pf : PidFiles) : Res (Nat × ProcessStats) :=
  match readPidStatFile pf.stat cfg.millisPerClockTick with
  | .error c => .error c
  | .ok pidStat =>
      let resolved : Res (Nat × Int) :=
        match readPidStatusFile pf.status with
        | .error .readError => .error .readError
        | .error .thrownOutOfRange => .error .thrownOutOfRange
        | .error .readWarning =>
            match latest.find? (fun e =>
                match alookup e.2.processStatsByPid pid with
                | some p => p.startTimeMillis = i64toU64 pidStat.startTimeMillis
                | none => false) with
            | some e => .ok (e.1, (pid : Int))
            | none => .ok (4294967295, -1)
        | .ok ut => .ok ut
      match resolved with
      | .error c => .error c
      | .ok ut =>
          if ut.1 = 4294967295 ∨ ut.2 ≠ (pid : Int) then .error .readWarning
          else
            let ps0 : ProcessStats :=
              { comm := pidStat.comm,
                startTimeMillis := i64toU64 pidStat.startTimeMillis,
                cpuTimeMillis := i64toU64 pidStat.cpuTimeMillis,
                totalCpuCycles := 0,
                totalMajorFaults := pidStat.majorFaults,
                totalTasksCount := 1,
                ioBlockedTasksCount := if pidStat.state = "D".toList then 1 else 0,
                cpuCyclesByTid := [] }
            let memRes : Res ProcessStats :=
              if cfg.isMemoryProfilingEnabled then
                let sr := readSmapsRollup cfg pf.smapsRollup ps0
                if sr.2 then .ok sr.1
                else
                  match readPidStatmFile pf.statm with
                  | .error .readError => .error .readError
                  | .error .readWarning => .ok sr.1
                  | .error .thrownOutOfRange => .error .thrownOutOfRange
                  | .ok pages =>
                      let mem := statmMemory pages.1 pages.2 cfg.pageSizeKb
                      .ok { sr.1 with rssKb := mem.1, ussKb := mem.2 }
              else .ok ps0
            match memRes with
            | .error c => .error c
            | .ok ps1 =>
                if ¬pf.taskDirExists then .ok (ut.1, ps1)
                else
                  match pf.taskEntries.foldlM (threadStep cfg pf pid) ps1 with
                  | .error c => .error c
                  | .ok ps2 => .ok (ut.1, ps2)

/-- `readUidProcStatsLocked` (lines 490-528): enumerate the PID
directory entries, read each PID (warnings skip the PID, errors abort the
whole collection) and fold the results per UID. -/
def readUidProcStatsLocked (cfg : CollectorCfg) (latest : Snapshot) (fs : ProcFS) :
    Res Snapshot :=
  if ¬fs.rootExists then .error .readError
  else
    fs.entries.foldlM (fun snap entry =>
      if ¬entry.2 then .ok snap
      else
        match parsePidNat entry.1 with
        | none => .ok snap
        | some pid =>
            match readProcessStats cfg latest pid (getPidFiles fs pid) with
            | .error .readWarning => .ok snap
            | .error .readError => .error .readError
            | .error .thrownOutOfRange => .error .thrownOutOfRange
            | .ok r => .ok (accumulateProcess snap pid r.1 r.2)) []

/-- The two mutex-guarded snapshots (`mLatestStats`, `mDeltaStats`). -/
structure CollectorState where
  latestStats : Snapshot := []
  deltaStats : Snapshot := []
deriving DecidableEq

/-- `collect()` (lines 425-488): a disabled collector or a failed
`readUidProcStatsLocked` returns an error (`false`) before any member is
mutated; on success the delta is computed against the previous latest
snapshot and both snapshots are replaced.  The `Bool` means "a new
snapshot pair was published": it is `false` both when `collect` returns
an error and when a `std::out_of_range` exception unwinds out of the
`const` reader (`thrownOutOfRange`) — in both cases before any member is
touched. -/
def collect (cfg : CollectorCfg) (fs : ProcFS) (st : CollectorState) :
    CollectorState × Bool :=
  if ¬cfg.isEnabled then (st, false)
  else
    match readUidProcStatsLocked cfg st.latestStats fs with
    | .error _ => (st, false)
    | .ok cur =>
        ({ latestStats := cur, deltaStats := computeDelta st.latestStats cur }, true)

/-! ### Concrete fixtures used by witnesses -/

def c4cfg : CollectorCfg := { isEnabled := true, isTimeInStateEnabled := true }

/-- A fixture whose PID 5 has a thread 7 with a malformed (three-line)
per-thread stat file: reading it is a `READ_ERROR`, so the whole
collection aborts. -/
def c4fs : ProcFS :=
  { rootExists := true,
    entries := [("5".toList, true), ("x".toList, true)],
    pids := [(5, { stat := some "5 (init) S 0 0 0 0 0 0 0 0 220 0 10 20 0 0 0 0 2 0 500".toList,
                   status := some "Uid:\t42\t42\t42\t42\nTgid:\t5".toList,
                   taskDirExists := true,
                   taskEntries := [("5".toList, true), ("7".toList, true)],
                   taskFiles := [(5, { timeInState := some "cpu0\n100 10".toList }),
                                 (7, { stat := some "bad\nlines\nmany".toList })] })] }

def c4st : CollectorState :=
  { latestStats := [(9, { cpuTimeMillis := 3 })], deltaStats := [(9, {})] }

/-- Previous per-UID stats for the C2 witness (spec scenario S3):
PID 1000 started at 5000 ms with 300 ms of CPU time. -/
def c2prevU : UidProcStats :=
  { cpuTimeMillis := 300,
    processStatsByPid := [(1000, { startTimeMillis := 5000, cpuTimeMillis := 300 })] }

/-- Current per-UID stats for the C2 witness: PID 1000 was reused — it
now starts at 9000 ms with 50 ms of CPU time. -/
def c2curU : UidProcStats :=
  { cpuTimeMillis := 50,
    processStatsByPid := [(1000, { startTimeMillis := 9000, cpuTimeMillis := 50 })] }

def c2cp : ProcessStats := { startTimeMillis := 9000, cpuTimeMillis := 50 }

/-- Previous snapshot for the C1 witness: PID 1000 of UID 42 with
`start_time_ms = 5000`, `cpu_time_ms = 300`, `major_faults = 7` and
TID 1000 at 100 cycles. -/
def c1prev : Snapshot :=
  [(42, { cpuTimeMillis := 300, cpuCycles := 100, totalMajorFaults := 7,
          totalTasksCount := 1,
          processStatsByPid :=
            [(1000, { startTimeMillis := 5000, cpuTimeMillis := 300,
                      totalCpuCycles := 100, totalMajorFaults := 7,
                      totalTasksCount := 1, cpuCyclesByTid := [(1000, 100)] })] })]

/-- Current snapshot for the C1 witness: same PID and start time,
`cpu_time_ms` grew to 450, but `major_faults` reset to 3 and the TID's
cycles reset to 50. -/
def c1cur : Snapshot :=
  [(42, { cpuTimeMillis := 450, cpuCycles := 50, totalMajorFaults := 3,
          totalTasksCount := 1,
          processStatsByPid :=
            [(1000, { startTimeMillis := 5000, cpuTimeMillis := 450,
                      totalCpuCycles := 50, totalMajorFaults := 3,
                      totalTasksCount := 1, cpuCyclesByTid := [(1000, 50)] })] })]

/-- The 20 post-comm fields of a synthesized stat line, placed so that,
relative to the state field (stat index 2), `major_faults` is at stat
index 11, `utime`/`stime` at 13/14 and `starttime` at 21. -/
def synthRest (mfS utS stS sttS : Str) : List Str :=
  ["R".toList, "0".toList, "0".toList, "0".toList, "0".toList, "0".toList, "0".toList,
   "0".toList, "0".toList, mfS, "0".toList, utS, stS, "0".toList, "0".toList, "0".toList,
   "0".toList, "0".toList, "0".toList, sttS]

/-- A stat line synthesized from a comm: pid field `1`, the comm wrapped
in parentheses as field 1, then the given post-comm fields. -/
def synthStatLine (comm : Str) (rest : List Str) : Str :=
  '1' :: ' ' :: (('(' :: comm ++ [')']) ++ ' ' :: joinSp rest)

/-! ## Helper lemmas -/

theorem cppSplitAux_ne_nil (ds : Str) : ∀ (s acc : Str), cppSplitAux ds s acc ≠ []
  | [], _ => by simp [cppSplitAux]
  | c :: rest, acc => by
      simp only [cppSplitAux]
      split
      · simp
      · exact cppSplitAux_ne_nil ds rest _

theorem cppSplitAux_no_delim (ds : Str) : ∀ (s acc : Str), (∀ c ∈ s, c ∉ ds) →
    cppSplitAux ds s acc = [acc.reverse ++ s]
  | [], acc, _ => by simp [cppSplitAux]
  | c :: rest, acc, h => by
      have hc : c ∉ ds := h c (by simp)
      simp only [cppSplitAux, if_neg hc]
      rw [cppSplitAux_no_delim ds rest (c :: acc) (fun x hx => h x (by simp [hx]))]
      simp

theorem cppSplit_no_delim (s ds : Str) (h : ∀ c ∈ s, c ∉ ds) : cppSplit s ds = [s] := by
  simpa using cppSplitAux_no_delim ds s [] h

theorem cppSplitAux_append_delim (ds : Str) (d : Char) (hd : d ∈ ds) :
    ∀ (s₁ s₂ acc : Str),
      cppSplitAux ds (s₁ ++ d :: s₂) acc = cppSplitAux ds s₁ acc ++ cppSplit s₂ ds
  | [], s₂, acc => by simp [cppSplitAux, if_pos hd, cppSplit]
  | c :: s₁, s₂, acc => by
      by_cases hc : c ∈ ds
      · simp only [List.cons_append, cppSplitAux, if_pos hc, List.append_eq]
        rw [cppSplitAux_append_delim ds d hd s₁ s₂ []]
      · simp only [List.cons_append, cppSplitAux, if_neg hc]
        exact cppSplitAux_append_delim ds d hd s₁ s₂ (c :: acc)

theorem cppSplit_append_delim (ds : Str) (d : Char) (hd : d ∈ ds) (s₁ s₂ : Str) :
    cppSplit (s₁ ++ d :: s₂) ds = cppSplit s₁ ds ++ cppSplit s₂ ds :=
  cppSplitAux_append_delim ds d hd s₁ s₂ []

theorem joinSp_cons_cons (x y : Str) (t : List Str) :
    joinSp (x :: y :: t) = x ++ ' ' :: joinSp (y :: t) := rfl

theorem joinSp_cppSplitAux : ∀ (s acc : Str),
    joinSp (cppSplitAux [' '] s acc) = acc.reverse ++ s
  | [], acc => by simp [cppSplitAux, joinSp]
  | c :: rest, acc => by
      by_cases hc : c ∈ ([' '] : Str)
      · have hc' : c = ' ' := by simpa using hc
        subst hc'
        simp only [cppSplitAux, if_pos hc]
        have hrest := joinSp_cppSplitAux rest []
        simp only [List.reverse_nil, List.nil_append] at hrest
        rcases hr : cppSplitAux [' '] rest [] with _ | ⟨a, t⟩
        · exact absurd hr (cppSplitAux_ne_nil _ _ _)
        · rw [hr] at hrest
          rw [joinSp_cons_cons, hrest]
      · simp only [cppSplitAux, if_neg hc]
        rw [joinSp_cppSplitAux rest (c :: acc)]
        simp

theorem cppSplit_joinSp : ∀ (l : List Str), l ≠ [] → (∀ x ∈ l, ' ' ∉ x) →
    cppSplit (joinSp l) [' '] = l
  | [], h, _ => absurd rfl h
  | [x], _, h => by
      have hx : ' ' ∉ x := h x (by simp)
      simp only [joinSp]
      refine cppSplit_no_delim x [' '] ?_
      intro c hc hcd
      have hce : c = ' ' := by simpa using hcd
      exact hx (hce ▸ hc)
  | x :: y :: t, _, h => by
      have hx : ' ' ∉ x := h x (by simp)
      rw [joinSp_cons_cons, cppSplit_append_delim [' '] ' ' (by simp) x (joinSp (y :: t)),
        cppSplit_joinSp (y :: t) (by simp) (fun z hz => h z (by simp [hz])),
        cppSplit_no_delim x [' ']
          (fun c hc hcd => hx ((show c = ' ' by simpa using hcd) ▸ hc))]
      simp

theorem cppSplitAux_head_takeWhile (ds : Str) : ∀ (s acc : Str),
    (cppSplitAux ds s acc).getD 0 [] = acc.reverse ++ s.takeWhile (fun c => decide (c ∉ ds))
  | [], acc => by simp [cppSplitAux]
  | c :: rest, acc => by
      by_cases hc : c ∈ ds
      · simp [cppSplitAux, if_pos hc, List.takeWhile, hc]
      · simp only [cppSplitAux, if_neg hc, List.takeWhile]
        rw [cppSplitAux_head_takeWhile ds rest (c :: acc)]
        simp [hc]

theorem cppSplit_head_takeWhile (s ds : Str) :
    (cppSplit s ds).getD 0 [] = s.takeWhile (fun c => decide (c ∉ ds)) := by
  simpa using cppSplitAux_head_takeWhile ds s []

theorem cppSplit_length_one_iff (s ds : Str) :
    (cppSplit s ds).length = 1 ↔ ∀ c ∈ s, c ∉ ds := by
  constructor
  · intro h c hc hcd
    rcases List.append_of_mem hc with ⟨s₁, s₂, rfl⟩
    rw [cppSplit_append_delim ds c hcd s₁ s₂] at h
    have h1 := cppSplitAux_ne_nil ds s₁ []
    have h2 := cppSplitAux_ne_nil ds s₂ []
    simp only [cppSplit] at h
    rw [List.length_append] at h
    have l1 : 1 ≤ (cppSplitAux ds s₁ []).length := List.length_pos.mpr h1
    have l2 : 1 ≤ (cppSplitAux ds s₂ []).length := List.length_pos.mpr h2
    omega
  · intro h
    rw [cppSplit_no_delim s ds h]
    rfl

theorem addUint64_eq_min (l r : Nat) (hl : l ≤ kMaxUint64) :
    addUint64 l r = min (l + r) kMaxUint64 := by
  simp only [addUint64, kMaxUint64] at *
  split <;> omega

theorem addUint64_le_max (l r : Nat) (hl : l ≤ kMaxUint64) :
    addUint64 l r ≤ kMaxUint64 := by
  rw [addUint64_eq_min l r hl]
  omega

theorem satFold_eq (xs : List Nat) (a : Nat) (ha : a ≤ kMaxUint64)
    (hx : ∀ x ∈ xs, x ≤ kMaxUint64) :
    xs.foldl addUint64 a = min (a + xs.sum) kMaxUint64 := by
  induction xs generalizing a with
  | nil => simp; omega
  | cons x xs ih =>
      have hxm : x ≤ kMaxUint64 := hx x (by simp)
      rw [List.foldl_cons,
        ih (addUint64 a x) (addUint64_le_max a x ha) (fun y hy => hx y (by simp [hy])),
        addUint64_eq_min a x ha, List.sum_cons]
      omega

theorem alookup_setA_self {κ α : Type} [DecidableEq κ] (l : List (κ × α)) (k : κ) (v : α) :
    alookup (setA l k v) k = some v := by
  induction l with
  | nil => simp [setA, alookup]
  | cons e rest ih =>
      by_cases h : e.1 = k
      · simp [setA, h, alookup]
      · simp [setA, h, alookup, ih]

theorem alookup_setA_other {κ α : Type} [DecidableEq κ] (l : List (κ × α)) (k k' : κ)
    (v : α) (h : k' ≠ k) : alookup (setA l k v) k' = alookup l k' := by
  have hkk : ¬ k = k' := fun hh => h hh.symm
  induction l with
  | nil => simp [setA, alookup, hkk]
  | cons e rest ih =>
      by_cases he : e.1 = k
      · simp [setA, he, alookup, hkk]
      · simp only [setA, he, if_false, alookup]
        split <;> simp [ih]

theorem alookup_map_keydep {κ α β : Type} [DecidableEq κ] (l : List (κ × α))
    (g : κ → α → β) (k : κ) :
    alookup (l.map fun e => (e.1, g e.1 e.2)) k = (alookup l k).map (g k) := by
  induction l with
  | nil => simp [alookup]
  | cons e rest ih =>
      by_cases h : e.1 = k
      · subst h; simp [alookup, ih]
      · simp [alookup, h, ih]

theorem wrap64_wrap_add (a b : Nat) : wrap64 (wrap64 a + b) = wrap64 (a + b) := by
  simp [wrap64, Nat.mod_add_mod]

theorem wrap64_le_max (a : Nat) : wrap64 a ≤ kMaxUint64 := by
  simp only [wrap64, kMaxUint64]
  omega

/-! ## Claim C5: saturating arithmetic -/

/-- Claim C5, counterexample: the saturating multiply is **not** exact.
For `l = 2^63 - 1` and `r = 2` the true product `2^64 - 2` fits in
`uint64_t`, yet `mul` returns `kMaxUint64 = 2^64 - 1` because its guard
`kMaxUint64 / r > l` compares with the floored quotient. -/
theorem c5_mul_not_exact :
    mulUint64 9223372036854775807 2 ≠
      min (9223372036854775807 * 2) (2 ^ 64 - 1) := by
  decide

theorem mulUint64_le_max (l r : Nat) : mulUint64 l r ≤ kMaxUint64 := by
  simp only [mulUint64]
  split
  · simp [kMaxUint64]
  · rename_i hz
    split
    · rename_i h
      have hr : 0 < r := by
        rcases Nat.eq_zero_or_pos r with h0 | h0
        · exact absurd (Or.inr h0) hz
        · exact h0
      have h2 : (l + 1) * r ≤ kMaxUint64 := (Nat.le_div_iff_mul_le hr).mp h
      calc l * r ≤ (l + 1) * r := Nat.mul_le_mul_right r (by omega)
        _ ≤ kMaxUint64 := h2
    · exact le_refl _

/-- Claim C5, amended: the saturating add is exact
(`addUint64 l r = min (l + r) 2^64-1`); the saturating multiply never
wraps — it is bounded below by the exact saturated product and above by
`2^64-1`, it returns the true product whenever it does not return the
ceiling, and it returns the ceiling whenever the true product overflows —
but it may return the ceiling even though `l * r = 2^64 - 2` (see the
counterexample), so it is not exactly `min (l * r) (2^64-1)`. -/
theorem c5_saturation_amended (l r : Nat) (hl : l ≤ kMaxUint64) (hr : r ≤ kMaxUint64) :
    addUint64 l r = min (l + r) kMaxUint64 ∧
    min (l * r) kMaxUint64 ≤ mulUint64 l r ∧
    mulUint64 l r ≤ kMaxUint64 ∧
    (mulUint64 l r ≠ kMaxUint64 → mulUint64 l r = l * r) ∧
    (kMaxUint64 < l * r → mulUint64 l r = kMaxUint64) := by
  refine ⟨addUint64_eq_min l r hl, ?_, mulUint64_le_max l r, ?_, ?_⟩
  · simp only [mulUint64]
    split
    · rename_i hz
      rcases hz with h0 | h0 <;> simp [h0]
    · split
      · exact min_le_left _ _
      · exact min_le_right _ _
  · intro hne
    by_cases hz : l = 0 ∨ r = 0
    · rcases hz with h0 | h0 <;> simp [mulUint64, h0]
    · by_cases h : kMaxUint64 / r > l
      · simp [mulUint64, hz, h]
      · exact absurd (by simp [mulUint64, hz, h]) hne
  · intro hlt
    simp only [mulUint64]
    split
    · rename_i hz
      rcases hz with h0 | h0 <;> simp [h0] at hlt
    · split
      · rename_i hz h
        have hr0 : 0 < r := by
          rcases Nat.eq_zero_or_pos r with h0 | h0
          · exact absurd (Or.inr h0) hz
          · exact h0
        have h2 : (l + 1) * r ≤ kMaxUint64 := (Nat.le_div_iff_mul_le hr0).mp h
        have h3 : l * r ≤ (l + 1) * r := Nat.mul_le_mul_right r (by omega)
        omega
      · rfl

/-- Witness for `c5_saturation_amended` at `l = 3`, `r = 5`. -/
theorem c5_saturation_amended_witness :
    addUint64 3 5 = min (3 + 5) kMaxUint64 ∧
    min (3 * 5) kMaxUint64 ≤ mulUint64 3 5 ∧
    mulUint64 3 5 ≤ kMaxUint64 ∧
    (mulUint64 3 5 ≠ kMaxUint64 → mulUint64 3 5 = 3 * 5) ∧
    (kMaxUint64 < 3 * 5 → mulUint64 3 5 = kMaxUint64) :=
  c5_saturation_amended 3 5 (by decide) (by decide)

/-! ## Claim C6: statm fallback memory arithmetic -/

/-- Claim C6, counterexample: with `shared_pages = 0` the code zeroes
`uss_kb` instead of leaving it equal to `rss_kb` (the guard is the strict
comparison `ussKb < rssKb`, and for `shared = 0` the subtraction leaves
`ussKb = rssKb`).  Input: `rss_pages = 1481`, `shared_pages = 0`,
`page_size_kb = 4` (the rss value from the file-format comment). -/
theorem c6_uss_zeroed_at_shared_zero :
    (statmMemory 1481 0 4).2 = 0 ∧ (statmMemory 1481 0 4).1 = 5924 ∧
    (statmMemory 1481 0 4).2 ≠ (statmMemory 1481 0 4).1 := by
  refine ⟨by decide, by decide, by decide⟩

/-- Claim C6, amended: `rss_kb = rss_pages * page_size_kb` (wrapping
`uint64_t` multiply), and with `sharedKb = shared_pages * page_size_kb`
(also wrapped): `uss_kb = rss_kb − sharedKb` when `0 < sharedKb ≤ rss_kb`,
and `uss_kb` is zeroed both when the subtraction would wrap below zero
(`rss_kb < sharedKb`) **and** when `sharedKb = 0` — in particular, for
`shared_pages = 0` the code yields `uss_kb = 0`, not `rss_kb`. -/
theorem c6_statm_amended (rp sp psk : Nat) :
    (statmMemory rp sp psk).1 = wrap64 (rp * psk) ∧
    (0 < wrap64 (sp * psk) → wrap64 (sp * psk) ≤ wrap64 (rp * psk) →
      (statmMemory rp sp psk).2 = wrap64 (rp * psk) - wrap64 (sp * psk)) ∧
    (wrap64 (sp * psk) = 0 → (statmMemory rp sp psk).2 = 0) ∧
    (wrap64 (rp * psk) < wrap64 (sp * psk) → (statmMemory rp sp psk).2 = 0) := by
  refine ⟨rfl, ?_, ?_, ?_⟩
  · show 0 < wrap64 (sp * psk) → _
    simp only [statmMemory, wrap64]
    generalize rp * psk = x
    generalize sp * psk = y
    intro h1 h2
    split <;> omega
  · show wrap64 (sp * psk) = 0 → _
    simp only [statmMemory, wrap64]
    generalize rp * psk = x
    generalize sp * psk = y
    intro h1
    split <;> omega
  · show wrap64 (rp * psk) < wrap64 (sp * psk) → _
    simp only [statmMemory, wrap64]
    generalize rp * psk = x
    generalize sp * psk = y
    intro h1
    split <;> omega

/-- Witness for `c6_statm_amended`: `rss_pages = 1481`,
`shared_pages = 938`, `page_size_kb = 4` (the example line of the statm
format comment): `uss_kb = 5924 - 3752`. -/
theorem c6_statm_amended_witness :
    (statmMemory 1481 938 4).2 = wrap64 (1481 * 4) - wrap64 (938 * 4) :=
  (c6_statm_amended 1481 938 4).2.1 (by decide) (by decide)

/-! ## Claim C7: per-UID fold arithmetic -/

/-- Claim C7, counterexample: `cpuTimeMillis` is folded into the per-UID
snapshot with plain wrapping `uint64_t` addition (line 518), not with
`addUint64`.  Two processes of the same UID with `cpuTimeMillis = 2^63`
fold to `0`, whereas the saturating sum is `kMaxUint64`. -/
theorem c7_cpu_fold_wraps :
    (alookup (readResultsFold
        [(1, 42, ({ cpuTimeMillis := 9223372036854775808 } : ProcessStats)),
         (2, 42, ({ cpuTimeMillis := 9223372036854775808 } : ProcessStats))]) 42).map
      UidProcStats.cpuTimeMillis = some 0 ∧
    addUint64 9223372036854775808 9223372036854775808 = kMaxUint64 ∧
    (0 : Nat) ≠ kMaxUint64 := by
  refine ⟨by decide, by decide, by decide⟩

/-- Claim C7, amended: in the per-UID fold, `cpu_time_ms`,
`total_major_faults`, `total_rss_kb` and `total_pss_kb` are summed with
plain wrapping (mod 2^64) addition, the task counts are summed exactly,
and only `cpu_cycles` is summed with the saturating `addUint64`. -/
theorem c7_uid_fold_amended (rs : List (Nat × Nat × ProcessStats)) (uid : Nat)
    (hall : ∀ r ∈ rs, r.2.1 = uid) (hne : rs ≠ []) :
    ∃ u, alookup (readResultsFold rs) uid = some u ∧
      u.cpuTimeMillis = wrap64 (rs.map (fun r => r.2.2.cpuTimeMillis)).sum ∧
      u.cpuCycles = (rs.map (fun r => r.2.2.totalCpuCycles)).foldl addUint64 0 ∧
      u.totalMajorFaults = wrap64 (rs.map (fun r => r.2.2.totalMajorFaults)).sum ∧
      u.totalTasksCount = (rs.map (fun r => r.2.2.totalTasksCount)).sum ∧
      u.ioBlockedTasksCount = (rs.map (fun r => r.2.2.ioBlockedTasksCount)).sum ∧
      u.totalRssKb = wrap64 (rs.map (fun r => r.2.2.rssKb)).sum ∧
      u.totalPssKb = wrap64 (rs.map (fun r => r.2.2.pssKb)).sum := by
  induction rs using List.reverseRecOn with
  | nil => exact absurd rfl hne
  | append_singleton l r ih =>
      have hfold : readResultsFold (l ++ [r]) =
          accumulateProcess (readResultsFold l) r.1 r.2.1 r.2.2 := by
        simp [readResultsFold, List.foldl_append]
      have huid : r.2.1 = uid := hall r (by simp)
      rcases List.eq_nil_or_concat l with hl | hcc
      · subst hl
        have hacc : accumulateProcess (readResultsFold []) r.1 r.2.1 r.2.2 =
            setA [] uid
              { cpuTimeMillis := wrap64 (0 + r.2.2.cpuTimeMillis),
                cpuCycles := addUint64 0 r.2.2.totalCpuCycles,
                totalMajorFaults := wrap64 (0 + r.2.2.totalMajorFaults),
                totalTasksCount := 0 + r.2.2.totalTasksCount,
                ioBlockedTasksCount := 0 + r.2.2.ioBlockedTasksCount,
                totalRssKb := wrap64 (0 + r.2.2.rssKb),
                totalPssKb := wrap64 (0 + r.2.2.pssKb),
                processStatsByPid := setA [] r.1 r.2.2 } := by
          simp [accumulateProcess, huid, readResultsFold, alookup]
        rw [hfold, hacc]
        refine ⟨_, alookup_setA_self _ _ _, ?_, ?_, ?_, ?_, ?_, ?_, ?_⟩ <;> simp
      · have hlne : l ≠ [] := by
          rcases hcc with ⟨l', a, rfl⟩
          simp
        rcases ih (fun x hx => hall x (by simp [hx])) hlne with
          ⟨u, hu, hcpu, hcyc, hmf, htc, hio, hrss, hpss⟩
        rw [hfold]
        have hacc : accumulateProcess (readResultsFold l) r.1 r.2.1 r.2.2 =
            setA (readResultsFold l) uid
              { cpuTimeMillis := wrap64 (u.cpuTimeMillis + r.2.2.cpuTimeMillis),
                cpuCycles := addUint64 u.cpuCycles r.2.2.totalCpuCycles,
                totalMajorFaults := wrap64 (u.totalMajorFaults + r.2.2.totalMajorFaults),
                totalTasksCount := u.totalTasksCount + r.2.2.totalTasksCount,
                ioBlockedTasksCount := u.ioBlockedTasksCount + r.2.2.ioBlockedTasksCount,
                totalRssKb := wrap64 (u.totalRssKb + r.2.2.rssKb),
                totalPssKb := wrap64 (u.totalPssKb + r.2.2.pssKb),
                processStatsByPid := setA u.processStatsByPid r.1 r.2.2 } := by
          simp [accumulateProcess, huid, hu]
        rw [hacc]
        refine ⟨_, alookup_setA_self _ _ _, ?_, ?_, ?_, ?_, ?_, ?_, ?_⟩ <;>
          simp [hcpu, hcyc, hmf, htc, hio, hrss, hpss, List.foldl_append,
            wrap64_wrap_add]

/-! ## Claim C4: error atomicity of collect() -/

/-- Claim C4: whenever `collect()` returns an error (including a parse
failure deep inside a per-PID or per-TID file read), the stored latest
and delta snapshots are left completely unchanged; a new snapshot pair is
published only on success.  (`readUidProcStatsLocked` is `const` and
builds into a local map; `collect` clears and rebuilds the members only
after that read succeeds, which the embedding mirrors.) -/
theorem c4_collect_error_atomic (cfg : CollectorCfg) (fs : ProcFS) (st : CollectorState)
    (h : (collect cfg fs st).2 = false) :
    (collect cfg fs st).1 = st := by
  by_cases he : ¬cfg.isEnabled
  · simp [collect, he]
  · cases hr : readUidProcStatsLocked cfg st.latestStats fs with
    | error c => simp [collect, he, hr]
    | ok cur =>
        exfalso
        simp [collect, he, hr] at h

/-- Witness for `c4_collect_error_atomic`: the fixture's PID 5 has a
thread whose stat file parses with a fatal error; `collect` fails and the
previously stored snapshots are untouched. -/
theorem c4_collect_error_atomic_witness :
    (collect c4cfg c4fs c4st).2 = false ∧ (collect c4cfg c4fs c4st).1 = c4st :=
  ⟨by decide, c4_collect_error_atomic c4cfg c4fs c4st (by decide)⟩

/-! ## Claim C10: comm bracket validation on short lines -/

/-- Claim C10: for a line with fewer than two space-separated fields the
comm accumulator is still empty when the bracket validation runs — i.e.
`pidStat->comm.front()` (and, but for short-circuiting, `.back()`) is
evaluated on an **empty** `std::string`, violating the C++ precondition;
the line is then only rejected because the out-of-bounds `front()` read
happens to yield a non-`'('` byte. -/
theorem c10_empty_comm_at_bracket_check (line : Str)
    (h : (cppSplit line [' ']).length < 2) :
    (commFieldsOf line).1 = [] ∧ parsePidStatLine line = none := by
  have hd : (cppSplit line [' ']).drop 1 = [] := by
    rcases hf : cppSplit line [' '] with _ | ⟨a, t⟩
    · rfl
    · rw [hf] at h
      simp only [List.length_cons] at h
      have : t = [] := List.eq_nil_of_length_eq_zero (by omega)
      simp [this]
  have hc : commFieldsOf line = ([], 0) := by
    simp [commFieldsOf, hd, commLoop]
  refine ⟨by simp [hc], ?_⟩
  simp only [parsePidStatLine, hc]
  rw [if_pos (show cppFront ([], 0).1 ≠ '(' from by decide)]

/-- Witness for `c10_empty_comm_at_bracket_check` at the single-field
line `"1234"` (e.g. a truncated stat file). -/
theorem c10_empty_comm_witness :
    (commFieldsOf "1234".toList).1 = [] ∧ parsePidStatLine "1234".toList = none :=
  c10_empty_comm_at_bracket_check "1234".toList (by decide)

/-! ## Claim C8: statm field requirement -/

/-- Claim C8, counterexample: a statm line with exactly **6**
whitespace-separated fields is accepted (the reader's guard is
`fields.size() < 6`, not `< 7`), returning fields 1 and 2. -/
theorem c8_six_fields_accepted :
    (cppSplit "1 2 3 4 5 6".toList [' ']).length = 6 ∧
    readPidStatmFile (some "1 2 3 4 5 6".toList) = .ok (2, 3) := by
  exact ⟨by decide, by rfl⟩

/-- Claim C8, amended: the statm reader fails with a parse error when the
single line has fewer than **6** space-separated fields; with at least 6
fields it returns field 1 as `rss_pages` and field 2 as `shared_pages`
(when they parse); and any line count other than one line plus an
optional trailing empty line fails with a parse error. -/
theorem c8_statm_amended (line : Str) (hnl : ∀ c ∈ line, c ∉ (['\n'] : Str)) :
    ((cppSplit line [' ']).length < 6 →
      readPidStatmFile (some line) = .error .readError) ∧
    (∀ r s, 6 ≤ (cppSplit line [' ']).length →
      parseUint64Str ((cppSplit line [' ']).getD 1 []) = some r →
      parseUint64Str ((cppSplit line [' ']).getD 2 []) = some s →
      readPidStatmFile (some line) = .ok (r, s)) ∧
    (∀ buffer : Str, 3 ≤ (cppSplit buffer ['\n']).length →
      readPidStatmFile (some buffer) = .error .readError) ∧
    (∀ buffer : Str, (cppSplit buffer ['\n']).length = 2 →
      (cppSplit buffer ['\n']).getD 1 [] ≠ [] →
      readPidStatmFile (some buffer) = .error .readError) := by
  have hl : cppSplit line ['\n'] = [line] := cppSplit_no_delim _ _ hnl
  refine ⟨?_, ?_, ?_, ?_⟩
  · intro hlen
    simp [readPidStatmFile, hl, hlen]
  · intro r s hlen hr hs
    have hlen' : ¬((cppSplit line [' ']).length < 6) := by omega
    rw [List.getD_eq_getElem?_getD] at hr hs
    simp [readPidStatmFile, hl, hlen', hr, hs]
  · intro buffer h3
    simp only [readPidStatmFile]
    rw [if_pos]
    rintro (h1 | ⟨h2, _⟩) <;> omega
  · intro buffer h2 hne
    simp only [readPidStatmFile]
    rw [if_pos]
    rintro (h1 | ⟨_, hh⟩)
    · omega
    · exact hne hh

/-- Witness for `c8_statm_amended` at the example line of the statm
format comment: `rss_pages = 1481`, `shared_pages = 938`. -/
theorem c8_statm_amended_witness :
    readPidStatmFile (some "2969783 1481 938 530 0 5067 0".toList) = .ok (1481, 938) :=
  (c8_statm_amended "2969783 1481 938 530 0 5067 0".toList (by decide)).2.1 1481 938
    (by decide) (by decide) (by decide)

/-! ## Claim C9: key/value split semantics -/

/-- Claim C9, counterexample: `Split` treats the delimiter as a character
**set**, so the retained line `"Uid: 123"`, which does not contain the
full delimiter string `":\t"`, still splits at its `':'` and the reader
succeeds (the claim requires a parse failure). -/
theorem c9_charset_not_full_delimiter :
    containsStr ":\t".toList "Uid: 123".toList = false ∧
    readKeyValueFile (some "Uid: 123".toList) [':', '\t'] ["Uid".toList] =
      .ok [("Uid".toList, "123".toList)] := by
  exact ⟨by decide, by rfl⟩

/-- Claim C9, amended: for each retained non-empty line the reader splits
at the first occurrence of **any character of the delimiter set**; the
key is the text before that character.  When
`key.length + delimiter.length` exceeds the line length (the first
delimiter-set character lies within the last `delimiter.length - 1` line
characters, e.g. the retained line `"Uid:"`), the `substr` call throws
`std::out_of_range` instead of producing a value.  Otherwise the value is
the trimmed remainder after `key.length + delimiter.length` characters;
a retained line containing **no character of the delimiter** fails with a
parse error, and a duplicate key fails with a parse error. -/
theorem c9_kv_split_amended (delim : Str) (m : List (Str × Str)) (line : Str)
    (hne : line ≠ []) :
    ((∀ c ∈ line, c ∉ delim) → processKVLine delim m line = .error .readError) ∧
    ((∃ c ∈ line, c ∈ delim) →
      (line.length < (line.takeWhile (fun c => decide (c ∉ delim))).length + delim.length →
        processKVLine delim m line = .error .thrownOutOfRange) ∧
      ((line.takeWhile (fun c => decide (c ∉ delim))).length + delim.length ≤ line.length →
        (alookup m (line.takeWhile (fun c => decide (c ∉ delim))) = none →
          processKVLine delim m line =
            .ok (m ++ [(line.takeWhile (fun c => decide (c ∉ delim)),
              trimStr (line.drop ((line.takeWhile (fun c => decide (c ∉ delim))).length +
                delim.length)))])) ∧
        (∀ v, alookup m (line.takeWhile (fun c => decide (c ∉ delim))) = some v →
          processKVLine delim m line = .error .readError))) := by
  constructor
  · intro hnd
    have h1 : cppSplit line delim = [line] := cppSplit_no_delim line delim hnd
    simp [processKVLine, hne, h1]
  · intro hex
    have hlen1 : (cppSplit line delim).length ≠ 1 := by
      rw [Ne, cppSplit_length_one_iff]
      intro hall
      rcases hex with ⟨c, hc, hcd⟩
      exact hall c hc hcd
    have hpos : 1 ≤ (cppSplit line delim).length :=
      List.length_pos.mpr (cppSplitAux_ne_nil _ _ _)
    have hlen : ¬((cppSplit line delim).length < 2) := by omega
    have hkey : (cppSplit line delim).getD 0 [] =
        line.takeWhile (fun c => decide (c ∉ delim)) :=
      cppSplit_head_takeWhile line delim
    rw [List.getD_eq_getElem?_getD] at hkey
    constructor
    · intro hth
      simp only [decide_not] at hth
      simp [processKVLine, hne, hlen, hkey, hth]
    · intro hin
      simp only [decide_not] at hin
      have hnotlt : ¬(line.length <
          (line.takeWhile (fun c => !decide (c ∈ delim))).length + delim.length) := by
        omega
      constructor
      · intro hnone
        simp only [decide_not] at hnone
        simp [processKVLine, hne, hlen, hkey, hnone, hnotlt]
      · intro v hsome
        simp only [decide_not] at hsome
        simp [processKVLine, hne, hlen, hkey, hsome, hnotlt]

/-- Witness for `c9_kv_split_amended`: the status line `"Tgid:\t5"`
(delimiter `":\t"`, empty map) yields key `"Tgid"` and value `"5"`, and
the truncated retained line `"Uid:"` hits the out-of-range `substr`
(position 5 on a 4-character line). -/
theorem c9_kv_split_amended_witness :
    processKVLine [':', '\t'] [] "Tgid:\t5".toList =
      .ok ([] ++ [("Tgid:\t5".toList.takeWhile (fun c => decide (c ∉ ([':', '\t'] : Str))),
        trimStr ("Tgid:\t5".toList.drop
          (("Tgid:\t5".toList.takeWhile (fun c => decide (c ∉ ([':', '\t'] : Str)))).length +
            ([':', '\t'] : Str).length)))]) ∧
    processKVLine [':', '\t'] [] "Uid:".toList = .error .thrownOutOfRange := by
  constructor
  · exact (((c9_kv_split_amended [':', '\t'] [] "Tgid:\t5".toList (by decide)).2
      (by decide)).2 (by decide)).1 (by decide)
  · exact ((c9_kv_split_amended [':', '\t'] [] "Uid:".toList (by decide)).2
      (by decide)).1 (by decide)

/-! ## Delta-computation helper lemmas (claims C1, C2) -/

theorem alookup_mem {κ α : Type} [DecidableEq κ] :
    ∀ (l : List (κ × α)) (k : κ) (v : α), alookup l k = some v → (k, v) ∈ l
  | [], k, v, h => by simp [alookup] at h
  | e :: rest, k, v, h => by
      by_cases he : e.1 = k
      · simp only [alookup, if_pos he] at h
        have : e = (k, v) := by
          cases e
          simp_all
        simp [this]
      · simp only [alookup, if_neg he] at h
        exact List.mem_cons_of_mem _ (alookup_mem rest k v h)

theorem deltaTid_le (p : List (Nat × Nat)) (tid c : Nat) : deltaTid p tid c ≤ c := by
  simp only [deltaTid]
  rcases alookup p tid with _ | pv
  · exact le_refl c
  · dsimp only
    split <;> omega

theorem satFoldPairs_eq_min (l : List (Nat × Nat)) (hx : ∀ tc ∈ l, tc.2 ≤ kMaxUint64) :
    l.foldl (fun a tc => addUint64 a tc.2) 0 =
      min (l.map (fun tc => tc.2)).sum kMaxUint64 := by
  rw [← List.foldl_map (fun tc : Nat × Nat => tc.2) addUint64 l 0,
    satFold_eq _ 0 (by simp [kMaxUint64])
      (fun x hxm => by
        rcases List.mem_map.mp hxm with ⟨tc, htc, rfl⟩
        exact hx tc htc)]
  simp

theorem dps_cpu_le (pm : List (Nat × ProcessStats)) (pid : Nat) (cp : ProcessStats) :
    (deltaProcessStats pm pid cp).cpuTimeMillis ≤ cp.cpuTimeMillis := by
  simp only [deltaProcessStats]
  rcases alookup pm pid with _ | prev
  · exact le_refl _
  · dsimp only
    split
    · simp only
      split <;> omega
    · exact le_refl _

theorem dps_mf_le (pm : List (Nat × ProcessStats)) (pid : Nat) (cp : ProcessStats) :
    (deltaProcessStats pm pid cp).totalMajorFaults ≤ cp.totalMajorFaults := by
  simp only [deltaProcessStats]
  rcases alookup pm pid with _ | prev
  · exact le_refl _
  · dsimp only
    split
    · simp only
      split <;> omega
    · exact le_refl _

theorem dps_tids (pm : List (Nat × ProcessStats)) (pid : Nat) (cp : ProcessStats) :
    (deltaProcessStats pm pid cp).cpuCyclesByTid = cp.cpuCyclesByTid ∨
    (∃ prev, alookup pm pid = some prev ∧ prev.startTimeMillis = cp.startTimeMillis ∧
      (deltaProcessStats pm pid cp).cpuCyclesByTid =
        cp.cpuCyclesByTid.map
          (fun tc => (tc.1, deltaTid prev.cpuCyclesByTid tc.1 tc.2))) := by
  simp only [deltaProcessStats]
  rcases hp : alookup pm pid with _ | prev
  · exact Or.inl rfl
  · dsimp only
    split
    · exact Or.inr ⟨prev, rfl, by assumption, rfl⟩
    · exact Or.inl rfl

theorem dps_cycles_le (pm : List (Nat × ProcessStats)) (pid : Nat) (cp : ProcessStats)
    (hwf : pswf cp) :
    (deltaProcessStats pm pid cp).totalCpuCycles ≤ cp.totalCpuCycles := by
  obtain ⟨-, -, htid, htot⟩ := hwf
  simp only [deltaProcessStats]
  rcases alookup pm pid with _ | prev
  · exact le_refl _
  · dsimp only
    split
    · simp only
      rw [satFoldPairs_eq_min _ (by
          intro tc htc
          rcases List.mem_map.mp htc with ⟨sc, hsc, rfl⟩
          exact le_trans (deltaTid_le _ _ _) (htid sc hsc)), htot,
        satFoldPairs_eq_min _ htid]
      have hsum : ((cp.cpuCyclesByTid.map
            (fun tc => (tc.1, deltaTid prev.cpuCyclesByTid tc.1 tc.2))).map
              (fun tc => tc.2)).sum ≤
          (cp.cpuCyclesByTid.map (fun tc => tc.2)).sum := by
        rw [List.map_map]
        exact List.sum_le_sum (fun tc _ => deltaTid_le _ _ _)
      omega
    · exact le_refl _

theorem dps_total_le_max (pm : List (Nat × ProcessStats)) (pid : Nat) (cp : ProcessStats)
    (hwf : pswf cp) :
    (deltaProcessStats pm pid cp).totalCpuCycles ≤ kMaxUint64 := by
  refine le_trans (dps_cycles_le pm pid cp hwf) ?_
  obtain ⟨-, -, htid, htot⟩ := hwf
  rw [htot, satFoldPairs_eq_min _ htid]
  omega

theorem tidLe_refl (l : List (Nat × Nat)) : tidLe l l :=
  ⟨rfl, fun _ _ => ⟨rfl, le_refl _⟩⟩

theorem tidLe_map (l : List (Nat × Nat)) (g : Nat → Nat → Nat)
    (h : ∀ tc ∈ l, g tc.1 tc.2 ≤ tc.2) :
    tidLe (l.map fun tc => (tc.1, g tc.1 tc.2)) l := by
  refine ⟨by simp, ?_⟩
  intro i hi
  rw [List.length_map] at hi
  have hm : (l.map fun tc => (tc.1, g tc.1 tc.2))[i]? = some (l[i].1, g l[i].1 l[i].2) := by
    rw [List.getElem?_map, List.getElem?_eq_getElem hi]
    rfl
  rw [List.getD_eq_getElem?_getD, List.getD_eq_getElem?_getD, hm,
    List.getElem?_eq_getElem hi]
  exact ⟨rfl, h l[i] (List.getElem_mem hi)⟩

theorem dps_tidLe (pm : List (Nat × ProcessStats)) (pid : Nat) (cp : ProcessStats) :
    tidLe (deltaProcessStats pm pid cp).cpuCyclesByTid cp.cpuCyclesByTid := by
  rcases dps_tids pm pid cp with h | ⟨prev, -, -, h⟩
  · rw [h]; exact tidLe_refl _
  · rw [h]
    exact tidLe_map _ _ (fun tc _ => deltaTid_le _ _ _)

theorem deltaFold_ps (pm : List (Nat × ProcessStats)) :
    ∀ (l : List (Nat × ProcessStats)) (acc : UidProcStats),
      (l.foldl (deltaFoldStep pm) acc).processStatsByPid =
        acc.processStatsByPid ++ l.map (fun e => (e.1, deltaProcessStats pm e.1 e.2))
  | [], acc => by simp
  | e :: t, acc => by
      rw [List.foldl_cons, deltaFold_ps pm t _]
      simp [deltaFoldStep]

theorem deltaFold_inst (pm : List (Nat × ProcessStats)) :
    ∀ (l : List (Nat × ProcessStats)) (acc : UidProcStats),
      (l.foldl (deltaFoldStep pm) acc).totalTasksCount = acc.totalTasksCount ∧
      (l.foldl (deltaFoldStep pm) acc).ioBlockedTasksCount = acc.ioBlockedTasksCount ∧
      (l.foldl (deltaFoldStep pm) acc).totalRssKb = acc.totalRssKb ∧
      (l.foldl (deltaFoldStep pm) acc).totalPssKb = acc.totalPssKb
  | [], acc => by simp
  | e :: t, acc => by
      rw [List.foldl_cons]
      have := deltaFold_inst pm t (deltaFoldStep pm acc e)
      simpa [deltaFoldStep] using this

theorem deltaFold_cpu (pm : List (Nat × ProcessStats)) :
    ∀ (l : List (Nat × ProcessStats)) (acc : UidProcStats),
      acc.cpuTimeMillis < 18446744073709551616 →
      (l.foldl (deltaFoldStep pm) acc).cpuTimeMillis =
        wrap64 (acc.cpuTimeMillis +
          (l.map (fun e => (deltaProcessStats pm e.1 e.2).cpuTimeMillis)).sum)
  | [], acc, ha => by
      simp [wrap64, Nat.mod_eq_of_lt ha]
  | e :: t, acc, ha => by
      rw [List.foldl_cons,
        deltaFold_cpu pm t (deltaFoldStep pm acc e) (by simp [deltaFoldStep, wrap64]; omega)]
      simp only [deltaFoldStep, List.map_cons, List.sum_cons]
      rw [wrap64_wrap_add]
      ring_nf

theorem deltaFold_mf (pm : List (Nat × ProcessStats)) :
    ∀ (l : List (Nat × ProcessStats)) (acc : UidProcStats),
      acc.totalMajorFaults < 18446744073709551616 →
      (l.foldl (deltaFoldStep pm) acc).totalMajorFaults =
        wrap64 (acc.totalMajorFaults +
          (l.map (fun e => (deltaProcessStats pm e.1 e.2).totalMajorFaults)).sum)
  | [], acc, ha => by
      simp [wrap64, Nat.mod_eq_of_lt ha]
  | e :: t, acc, ha => by
      rw [List.foldl_cons,
        deltaFold_mf pm t (deltaFoldStep pm acc e) (by simp [deltaFoldStep, wrap64]; omega)]
      simp only [deltaFoldStep, List.map_cons, List.sum_cons]
      rw [wrap64_wrap_add]
      ring_nf

theorem deltaFold_cycles (pm : List (Nat × ProcessStats)) :
    ∀ (l : List (Nat × ProcessStats)) (acc : UidProcStats),
      (l.foldl (deltaFoldStep pm) acc).cpuCycles =
        (l.map (fun e => (deltaProcessStats pm e.1 e.2).totalCpuCycles)).foldl
          addUint64 acc.cpuCycles
  | [], acc => by simp
  | e :: t, acc => by
      rw [List.foldl_cons, deltaFold_cycles pm t _]
      simp [deltaFoldStep]

theorem satFoldPS (f : ProcessStats → Nat) :
    ∀ (l : List (Nat × ProcessStats)) (a : Nat), a ≤ kMaxUint64 →
      (∀ e ∈ l, f e.2 ≤ kMaxUint64) →
      l.foldl (fun a e => addUint64 a (f e.2)) a =
        min (a + (l.map (fun e => f e.2)).sum) kMaxUint64
  | [], a, ha, _ => by simp; omega
  | e :: t, a, ha, hb => by
      rw [List.foldl_cons,
        satFoldPS f t _ (addUint64_le_max _ _ ha) (fun x hx => hb x (by simp [hx])),
        addUint64_eq_min _ _ ha]
      have hbe : f e.2 ≤ kMaxUint64 := hb e (by simp)
      simp only [List.map_cons, List.sum_cons]
      omega

theorem wrapLe_minSat (sd sc : Nat) (h : sd ≤ sc) :
    wrap64 sd ≤ min sc kMaxUint64 := by
  simp only [wrap64, kMaxUint64]
  omega

/-! ## Claim C2: PID-reuse isolation -/

/-- Claim C2: if a PID appears in both the previous and the current
snapshot but with differing `start_time_ms` (or is absent from the
previous snapshot), the delta `ProcessStats` stored for that PID is the
current absolute `ProcessStats` verbatim — no subtraction is performed on
any of its fields. -/
theorem c2_pid_reuse_isolation (latest cur : Snapshot) (uid pid : Nat)
    (prevU curU : UidProcStats) (cp : ProcessStats)
    (hpu : alookup latest uid = some prevU)
    (hcu : alookup cur uid = some curU)
    (hcp : alookup curU.processStatsByPid pid = some cp)
    (hmis : ∀ pp, alookup prevU.processStatsByPid pid = some pp →
      pp.startTimeMillis ≠ cp.startTimeMillis) :
    ∃ du, alookup (computeDelta latest cur) uid = some du ∧
      alookup du.processStatsByPid pid = some cp := by
  have hmap := alookup_map_keydep cur (deltaForUid latest) uid
  rw [hcu] at hmap
  simp only [Option.map_some'] at hmap
  refine ⟨deltaForUid latest uid curU, hmap, ?_⟩
  have hdu3 : deltaForUid latest uid curU = deltaUidStats prevU curU := by
    simp [deltaForUid, hpu]
  have hPS : (deltaUidStats prevU curU).processStatsByPid =
      curU.processStatsByPid.map
        (fun e => (e.1, deltaProcessStats prevU.processStatsByPid e.1 e.2)) := by
    rw [deltaUidStats, deltaFold_ps]
    simp
  have hd : deltaProcessStats prevU.processStatsByPid pid cp = cp := by
    simp only [deltaProcessStats]
    rcases hp : alookup prevU.processStatsByPid pid with _ | pp
    · rfl
    · dsimp only
      rw [if_neg (hmis pp hp)]
  rw [hdu3, hPS, alookup_map_keydep, hcp]
  simp [hd]

/-- Witness for `c2_pid_reuse_isolation`: scenario S3 of the spec —
PID 1000 reappears with `start_time_ms` 9000 instead of 5000 and
`cpu_time_ms` 50; the delta keeps the full current record. -/
theorem c2_pid_reuse_isolation_witness :
    ∃ du, alookup (computeDelta [(42, c2prevU)] [(42, c2curU)]) 42 = some du ∧
      alookup du.processStatsByPid 1000 = some c2cp :=
  c2_pid_reuse_isolation [(42, c2prevU)] [(42, c2curU)] 42 1000 c2prevU c2curU c2cp
    (by decide) (by decide) (by decide) (by decide)

/-! ## Claim C1: delta non-negativity and boundedness -/

/-- Claim C1: for well-formed snapshots, every counter of the delta
snapshot is (non-negative and) at most the corresponding current counter
— at the UID level for `cpu_time_ms`, `total_major_faults` and
`cpu_cycles` (the instantaneous fields are copied verbatim), and at the
process level for `cpu_time_ms`, `total_major_faults`,
`total_cpu_cycles` and every per-TID cycle count; moreover, whenever a
current counter is smaller than the previous counter for a PID with
matching `start_time_ms`, the delta for that counter is exactly the
current value. -/
theorem c1_delta_nonneg_bounded (latest cur : Snapshot) (hwf : snapwf cur)
    (uid : Nat) (du cu : UidProcStats)
    (hdu : alookup (computeDelta latest cur) uid = some du)
    (hcu : alookup cur uid = some cu) :
    du.cpuTimeMillis ≤ cu.cpuTimeMillis ∧
    du.totalMajorFaults ≤ cu.totalMajorFaults ∧
    du.cpuCycles ≤ cu.cpuCycles ∧
    du.totalTasksCount = cu.totalTasksCount ∧
    du.ioBlockedTasksCount = cu.ioBlockedTasksCount ∧
    du.totalRssKb = cu.totalRssKb ∧
    du.totalPssKb = cu.totalPssKb ∧
    (∀ pid dp cp, alookup du.processStatsByPid pid = some dp →
      alookup cu.processStatsByPid pid = some cp →
      dp.cpuTimeMillis ≤ cp.cpuTimeMillis ∧
      dp.totalMajorFaults ≤ cp.totalMajorFaults ∧
      dp.totalCpuCycles ≤ cp.totalCpuCycles ∧
      tidLe dp.cpuCyclesByTid cp.cpuCyclesByTid ∧
      (∀ prevU pp, alookup latest uid = some prevU →
        alookup prevU.processStatsByPid pid = some pp →
        pp.startTimeMillis = cp.startTimeMillis →
        (cp.cpuTimeMillis < pp.cpuTimeMillis → dp.cpuTimeMillis = cp.cpuTimeMillis) ∧
        (cp.totalMajorFaults < pp.totalMajorFaults →
          dp.totalMajorFaults = cp.totalMajorFaults) ∧
        (∀ tid pc cc, alookup pp.cpuCyclesByTid tid = some pc →
          alookup cp.cpuCyclesByTid tid = some cc → cc < pc →
          alookup dp.cpuCyclesByTid tid = some cc))) := by
  have hmap := alookup_map_keydep cur (deltaForUid latest) uid
  rw [hcu] at hmap
  simp only [Option.map_some'] at hmap
  obtain rfl : deltaForUid latest uid cu = du := Option.some.inj (hmap.symm.trans hdu)
  have hu : uwf cu := hwf (uid, cu) (alookup_mem cur uid cu hcu)
  obtain ⟨hups, hucpu, hucyc, humf⟩ := hu
  rcases hl : alookup latest uid with _ | prevU
  · have hdu3 : deltaForUid latest uid cu = cu := by simp [deltaForUid, hl]
    rw [hdu3]
    refine ⟨le_refl _, le_refl _, le_refl _, rfl, rfl, rfl, rfl, ?_⟩
    intro pid dp cp hdp hcp
    rw [hdp] at hcp
    obtain rfl : dp = cp := Option.some.inj hcp
    refine ⟨le_refl _, le_refl _, le_refl _, tidLe_refl _, ?_⟩
    intro prevU pp hlp
    exact absurd hlp (by simp)
  · have hdu3 : deltaForUid latest uid cu = deltaUidStats prevU cu := by
      simp [deltaForUid, hl]
    rw [hdu3]
    have hPS : (deltaUidStats prevU cu).processStatsByPid =
        cu.processStatsByPid.map
          (fun e => (e.1, deltaProcessStats prevU.processStatsByPid e.1 e.2)) := by
      rw [deltaUidStats, deltaFold_ps]
      simp
    have hIN := deltaFold_inst prevU.processStatsByPid cu.processStatsByPid
      { cpuTimeMillis := 0, cpuCycles := 0, totalMajorFaults := 0,
        totalTasksCount := cu.totalTasksCount,
        ioBlockedTasksCount := cu.ioBlockedTasksCount,
        totalRssKb := cu.totalRssKb,
        totalPssKb := cu.totalPssKb,
        processStatsByPid := [] }
    have hCPU : (deltaUidStats prevU cu).cpuTimeMillis =
        wrap64 (0 + (cu.processStatsByPid.map
          (fun e => (deltaProcessStats prevU.processStatsByPid e.1 e.2).cpuTimeMillis)).sum) := by
      rw [deltaUidStats, deltaFold_cpu prevU.processStatsByPid _ _ (by norm_num)]
    have hMF : (deltaUidStats prevU cu).totalMajorFaults =
        wrap64 (0 + (cu.processStatsByPid.map
          (fun e => (deltaProcessStats prevU.processStatsByPid e.1 e.2).totalMajorFaults)).sum) := by
      rw [deltaUidStats, deltaFold_mf prevU.processStatsByPid _ _ (by norm_num)]
    have hCYC : (deltaUidStats prevU cu).cpuCycles =
        (cu.processStatsByPid.map
          (fun e => (deltaProcessStats prevU.processStatsByPid e.1 e.2).totalCpuCycles)).foldl
            addUint64 0 := by
      rw [deltaUidStats, deltaFold_cycles prevU.processStatsByPid]
    have hcycb : ∀ e ∈ cu.processStatsByPid, e.2.totalCpuCycles ≤ kMaxUint64 := by
      intro e he
      obtain ⟨-, -, htid, htot⟩ := hups e he
      rw [htot, satFoldPairs_eq_min _ htid]
      omega
    refine ⟨?_, ?_, ?_, hIN.1, hIN.2.1, hIN.2.2.1, hIN.2.2.2, ?_⟩
    · have hsat := hucpu.trans
        (satFoldPS (fun ps => ps.cpuTimeMillis) cu.processStatsByPid 0 (by norm_num)
          (fun e he => (hups e he).1))
      have hsum : (cu.processStatsByPid.map
            (fun e => (deltaProcessStats prevU.processStatsByPid e.1 e.2).cpuTimeMillis)).sum ≤
          (cu.processStatsByPid.map (fun e => e.2.cpuTimeMillis)).sum :=
        List.sum_le_sum (fun e _ => dps_cpu_le _ _ _)
      rw [hCPU, hsat]
      simp only [Nat.zero_add]
      exact wrapLe_minSat _ _ hsum
    · have hsat := humf.trans
        (satFoldPS (fun ps => ps.totalMajorFaults) cu.processStatsByPid 0 (by norm_num)
          (fun e he => (hups e he).2.1))
      have hsum : (cu.processStatsByPid.map
            (fun e => (deltaProcessStats prevU.processStatsByPid e.1 e.2).totalMajorFaults)).sum ≤
          (cu.processStatsByPid.map (fun e => e.2.totalMajorFaults)).sum :=
        List.sum_le_sum (fun e _ => dps_mf_le _ _ _)
      rw [hMF, hsat]
      simp only [Nat.zero_add]
      exact wrapLe_minSat _ _ hsum
    · have hsatC : cu.cpuCycles =
          min (0 + (cu.processStatsByPid.map (fun e => e.2.totalCpuCycles)).sum)
            kMaxUint64 :=
        hucyc.trans
          (satFoldPS (fun ps => ps.totalCpuCycles) cu.processStatsByPid 0 (by norm_num) hcycb)
      have hsatD : (cu.processStatsByPid.map
            (fun e => (deltaProcessStats prevU.processStatsByPid e.1 e.2).totalCpuCycles)).foldl
              addUint64 0 =
          min (0 + (cu.processStatsByPid.map
            (fun e => (deltaProcessStats prevU.processStatsByPid e.1 e.2).totalCpuCycles)).sum)
            kMaxUint64 := by
        refine satFold_eq _ 0 (by norm_num [kMaxUint64]) ?_
        intro x hxm
        rcases List.mem_map.mp hxm with ⟨e, he, rfl⟩
        exact dps_total_le_max _ _ _ (hups e he)
      have hsum : (cu.processStatsByPid.map
            (fun e => (deltaProcessStats prevU.processStatsByPid e.1 e.2).totalCpuCycles)).sum ≤
          (cu.processStatsByPid.map (fun e => e.2.totalCpuCycles)).sum :=
        List.sum_le_sum (fun e he => dps_cycles_le _ _ _ (hups e he))
      rw [hCYC, hsatD, hsatC]
      omega
    · intro pid dp cp hdp hcp
      rw [hPS, alookup_map_keydep, hcp] at hdp
      simp only [Option.map_some'] at hdp
      obtain rfl : deltaProcessStats prevU.processStatsByPid pid cp = dp :=
        Option.some.inj hdp
      have hcpwf : pswf cp := hups (pid, cp) (alookup_mem _ _ _ hcp)
      refine ⟨dps_cpu_le _ _ _, dps_mf_le _ _ _, dps_cycles_le _ _ _ hcpwf,
        dps_tidLe _ _ _, ?_⟩
      intro prevU' pp hlp hpp hstart
      obtain rfl : prevU = prevU' := Option.some.inj hlp
      have hd : deltaProcessStats prevU.processStatsByPid pid cp =
          { cp with
            cpuTimeMillis :=
              if pp.cpuTimeMillis ≤ cp.cpuTimeMillis then
                cp.cpuTimeMillis - pp.cpuTimeMillis
              else cp.cpuTimeMillis,
            totalMajorFaults :=
              if pp.totalMajorFaults ≤ cp.totalMajorFaults then
                cp.totalMajorFaults - pp.totalMajorFaults
              else cp.totalMajorFaults,
            totalCpuCycles :=
              (cp.cpuCyclesByTid.map
                (fun tc => (tc.1, deltaTid pp.cpuCyclesByTid tc.1 tc.2))).foldl
                  (fun a tc => addUint64 a tc.2) 0,
            cpuCyclesByTid :=
              cp.cpuCyclesByTid.map
                (fun tc => (tc.1, deltaTid pp.cpuCyclesByTid tc.1 tc.2)) } := by
        simp only [deltaProcessStats, hpp]
        rw [if_pos hstart]
      refine ⟨?_, ?_, ?_⟩
      · intro hlt
        rw [hd]
        simp only
        rw [if_neg (by omega)]
      · intro hlt
        rw [hd]
        simp only
        rw [if_neg (by omega)]
      · intro tid pc cc hpc hcc hlt
        rw [hd]
        simp only
        rw [alookup_map_keydep, hcc]
        simp only [Option.map_some']
        have : deltaTid pp.cpuCyclesByTid tid cc = cc := by
          simp only [deltaTid, hpc]
          rw [if_neg (by omega)]
        rw [this]

/-- Witness for `c1_delta_nonneg_bounded`: the concrete snapshots
`c1prev`/`c1cur` (same PID 1000, same start time; `cpu_time_ms` grew,
`major_faults` and the TID cycles reset), evaluated at UID 42. -/
theorem c1_delta_nonneg_bounded_witness :
    snapwf c1cur ∧
    ∃ du cu, alookup (computeDelta c1prev c1cur) 42 = some du ∧
      alookup c1cur 42 = some cu ∧
      du.cpuTimeMillis ≤ cu.cpuTimeMillis ∧
      du.totalMajorFaults ≤ cu.totalMajorFaults ∧
      du.cpuCycles ≤ cu.cpuCycles := by
  have hdu : alookup (computeDelta c1prev c1cur) 42 =
      some { cpuTimeMillis := 150, cpuCycles := 50, totalMajorFaults := 3,
             totalTasksCount := 1,
             processStatsByPid :=
               [(1000, { startTimeMillis := 5000, cpuTimeMillis := 150,
                         totalCpuCycles := 50, totalMajorFaults := 3,
                         totalTasksCount := 1,
                         cpuCyclesByTid := [(1000, 50)] })] } := by decide
  have hcu : alookup c1cur 42 =
      some { cpuTimeMillis := 450, cpuCycles := 50, totalMajorFaults := 3,
             totalTasksCount := 1,
             processStatsByPid :=
               [(1000, { startTimeMillis := 5000, cpuTimeMillis := 450,
                         totalCpuCycles := 50, totalMajorFaults := 3,
                         totalTasksCount := 1,
                         cpuCyclesByTid := [(1000, 50)] })] } := by decide
  have h := c1_delta_nonneg_bounded c1prev c1cur (by decide) 42 _ _ hdu hcu
  exact ⟨by decide, _, _, hdu, hcu, h.1, h.2.1, h.2.2.1⟩

/-- Witness for `c7_uid_fold_amended` on two concrete processes of
UID 42. -/
theorem c7_uid_fold_amended_witness :
    ∃ u, alookup (readResultsFold
        [(1, 42, ({ cpuTimeMillis := 10, totalCpuCycles := 100, totalMajorFaults := 3,
                    totalTasksCount := 2, ioBlockedTasksCount := 1, rssKb := 7,
                    pssKb := 6 } : ProcessStats)),
         (2, 42, ({ cpuTimeMillis := 20, totalCpuCycles := 200, totalMajorFaults := 4,
                    totalTasksCount := 3, ioBlockedTasksCount := 0, rssKb := 8,
                    pssKb := 5 } : ProcessStats))]) 42 = some u ∧
      u.cpuTimeMillis = wrap64 ([(10 : Nat), 20]).sum ∧
      u.cpuCycles = ([(100 : Nat), 200]).foldl addUint64 0 ∧
      u.totalMajorFaults = wrap64 ([(3 : Nat), 4]).sum ∧
      u.totalTasksCount = ([(2 : Nat), 3]).sum ∧
      u.ioBlockedTasksCount = ([(1 : Nat), 0]).sum ∧
      u.totalRssKb = wrap64 ([(7 : Nat), 8]).sum ∧
      u.totalPssKb = wrap64 ([(6 : Nat), 5]).sum :=
  c7_uid_fold_amended _ 42 (by decide) (by decide)

/-! ## Claim C3: comm parsing round trip -/

theorem getD_append_len {α : Type} (l₁ l₂ : List α) (m : Nat) (d : α) :
    (l₁ ++ l₂).getD (l₁.length + m) d = l₂.getD m d := by
  induction l₁ with
  | nil => simp
  | cons a t ih =>
      simp only [List.length_cons, List.cons_append]
      rw [show t.length + 1 + m = (t.length + m) + 1 by omega, List.getD_cons_succ]
      exact ih

theorem getLast?_append_cons {α : Type} : ∀ (l₁ : List α) (a : α) (l₂ : List α),
    (l₁ ++ a :: l₂).getLast? = (a :: l₂).getLast?
  | [], _, _ => rfl
  | b :: t, a, l₂ => by
      have ih := getLast?_append_cons t a l₂
      rw [List.cons_append]
      rcases hx : t ++ a :: l₂ with _ | ⟨c, u⟩
      · exact absurd hx (by simp)
      · rw [List.getLast?_cons_cons, ← hx, ih]

theorem joinSp_getLast : ∀ (cs : List Str), cs ≠ [] → ∀ (d : Char), d ≠ ' ' →
    (joinSp cs).getLast? = some d → ∃ c, cs.getLast? = some c ∧ c.getLast? = some d
  | [], hne, _, _, _ => absurd rfl hne
  | [x], _, d, _, h => ⟨x, by simp, by simpa [joinSp] using h⟩
  | x :: y :: t, _, d, hd, h => by
      rw [joinSp_cons_cons, getLast?_append_cons] at h
      rcases hJ : joinSp (y :: t) with _ | ⟨j, J⟩
      · rw [hJ] at h
        simp at h
        exact absurd h.symm hd
      · rw [hJ, List.getLast?_cons_cons, ← hJ] at h
        rcases joinSp_getLast (y :: t) (by simp) d hd h with ⟨c, hc, hcd⟩
        exact ⟨c, by rw [List.getLast?_cons_cons]; exact hc, hcd⟩

theorem commLoop_spec : ∀ (cs : List Str) (rest : List Str) (i : Nat) (acc : Str),
    cs ≠ [] → (∀ c ∈ cs.dropLast, lastIs c ')' = false) →
    (∃ c, cs.getLast? = some c ∧ lastIs c ')' = true) →
    commLoop (cs ++ rest) i acc = (acc ++ joinSp cs, i + cs.length - 2)
  | [], _, _, _, hne, _, _ => absurd rfl hne
  | [c], rest, i, acc, _, _, hlast => by
      rcases hlast with ⟨c', hc', hp⟩
      simp only [List.getLast?_singleton, Option.some.injEq] at hc'
      subst hc'
      simp only [List.cons_append, List.nil_append, commLoop, hp, if_true]
      refine Prod.ext rfl ?_
      simp only [joinSp, List.length_singleton]
      omega
  | c :: c' :: t, rest, i, acc, _, hmid, hlast => by
      have hc : lastIs c ')' = false := hmid c (by simp)
      have hmid' : ∀ x ∈ (c' :: t).dropLast, lastIs x ')' = false := by
        intro x hx
        exact hmid x (by simp [hx])
      have hlast' : ∃ x, (c' :: t).getLast? = some x ∧ lastIs x ')' = true := by
        rcases hlast with ⟨x, hx, hxp⟩
        rw [List.getLast?_cons_cons] at hx
        exact ⟨x, hx, hxp⟩
      rw [List.cons_append]
      rw [show commLoop ((c :: ((c' :: t) ++ rest)) : List Str) i acc =
        commLoop ((c' :: t) ++ rest) (i + 1) (acc ++ c ++ [' ']) from by
          simp [commLoop, hc]]
      rw [commLoop_spec (c' :: t) rest (i + 1) (acc ++ c ++ [' ']) (by simp) hmid' hlast']
      refine Prod.ext ?_ ?_
      · simp [joinSp_cons_cons, List.append_assoc]
      · simp only [List.length_cons]
        omega

/-- Claim C3, counterexample: the comm `"a) b"` (an interior
space-separated chunk ending in `')'`) does **not** round-trip — the
accumulation loop stops at the first field ending in `')'`, so the parse
"succeeds" with comm `"a"`, a wrong state field, and numeric fields read
from wrong offsets. -/
theorem c3_space_paren_comm_breaks :
    parsePidStatLine (synthStatLine "a) b".toList
        (synthRest "7".toList "10".toList "20".toList "500".toList)) ≠
      some { comm := "a) b".toList, state := "R".toList, majorFaults := 7,
             cpuTimeMillis := 30, startTimeMillis := 500 } ∧
    (parsePidStatLine (synthStatLine "a) b".toList
        (synthRest "7".toList "10".toList "20".toList "500".toList))).map
      PidStat.comm = some "a".toList := by
  exact ⟨by decide, by decide⟩

/-- Claim C3, amended: the round trip holds for every comm such that no
space-separated chunk of the parenthesized comm **except the last** ends
with `')'` (equivalently, no `')'` in the comm is immediately followed by
a space); under that restriction the comm is recovered exactly and the
numeric fields (`major_faults`, `utime`, `stime`, `starttime`) and the
state are read from the correct `commEndOffset`-adjusted positions. -/
theorem c3_comm_round_trip_amended (comm mfS utS stS sttS : Str)
    (mf : Nat) (ut st stt : Int)
    (hchunks : ∀ c ∈ (cppSplit ('(' :: comm ++ [')']) [' ']).dropLast,
      lastIs c ')' = false)
    (hmfS : ' ' ∉ mfS) (hutS : ' ' ∉ utS) (hstS : ' ' ∉ stS) (hsttS : ' ' ∉ sttS)
    (hmf : parseUint64Str mfS = some mf) (hut : parseInt64Str utS = some ut)
    (hst : parseInt64Str stS = some st) (hstt : parseInt64Str sttS = some stt) :
    parsePidStatLine (synthStatLine comm (synthRest mfS utS stS sttS)) =
      some { comm := comm, state := "R".toList, majorFaults := mf,
             cpuTimeMillis := ut + st, startTimeMillis := stt } := by
  set B : Str := '(' :: comm ++ [')'] with hB
  set cs : List Str := cppSplit B [' '] with hcsdef
  set rest : List Str := synthRest mfS utS stS sttS with hrestdef
  have hcs_ne : cs ≠ [] := cppSplitAux_ne_nil [' '] B []
  have hcs1 : 1 ≤ cs.length := List.length_pos.mpr hcs_ne
  have hjoin : joinSp cs = B := by
    simpa using joinSp_cppSplitAux B []
  have hlastB : B.getLast? = some ')' := by
    rw [hB]
    show (('(' :: comm) ++ [')']).getLast? = some ')'
    exact List.getLast?_concat _
  have hlastcs : ∃ c, cs.getLast? = some c ∧ lastIs c ')' = true := by
    rcases joinSp_getLast cs hcs_ne ')' (by decide) (hjoin ▸ hlastB) with ⟨c, hc, hcd⟩
    exact ⟨c, hc, by simp [lastIs, hcd]⟩
  have hrest_ne : rest ≠ [] := by rw [hrestdef]; simp [synthRest]
  have hrest_ns : ∀ x ∈ rest, ' ' ∉ x := by
    rw [hrestdef]
    intro x hx
    simp only [synthRest, List.mem_cons, List.not_mem_nil, or_false] at hx
    rcases hx with rfl|rfl|rfl|rfl|rfl|rfl|rfl|rfl|rfl|rfl|rfl|rfl|rfl|rfl|rfl|rfl|rfl|rfl|rfl|rfl <;>
      first
        | exact hmfS
        | exact hutS
        | exact hstS
        | exact hsttS
        | decide
  have hrlen : rest.length = 20 := by rw [hrestdef]; rfl
  have hFields : cppSplit (synthStatLine comm rest) [' '] = (['1'] : Str) :: (cs ++ rest) := by
    rw [synthStatLine, ← hB]
    rw [show ('1' :: ' ' :: (B ++ ' ' :: joinSp rest) : Str) =
      ['1'] ++ ' ' :: (B ++ ' ' :: joinSp rest) from rfl]
    rw [cppSplit_append_delim [' '] ' ' (by simp) ['1'] (B ++ ' ' :: joinSp rest),
      cppSplit_append_delim [' '] ' ' (by simp) B (joinSp rest),
      cppSplit_joinSp rest hrest_ne hrest_ns,
      cppSplit_no_delim ['1'] [' '] (by decide)]
    rfl
  have hCF : commFieldsOf (synthStatLine comm rest) = (B, cs.length - 1) := by
    rw [commFieldsOf, hFields]
    rw [show ((['1'] : Str) :: (cs ++ rest)).drop 1 = cs ++ rest from rfl]
    rw [commLoop_spec cs rest 1 [] hcs_ne hchunks hlastcs]
    rw [List.nil_append, hjoin]
    refine Prod.ext rfl ?_
    simp only
    omega
  have hlen : ((['1'] : Str) :: (cs ++ rest)).length = 21 + cs.length := by
    simp [hrlen]
    omega
  have hposD : ∀ m : Nat,
      ((['1'] : Str) :: (cs ++ rest)).getD (cs.length + m + 1) [] = rest.getD m [] := by
    intro m
    rw [show cs.length + m + 1 = (cs.length + m) + 1 from rfl, List.getD_cons_succ,
      getD_append_len cs rest m []]
  have h2 : ((['1'] : Str) :: (cs ++ rest)).getD (2 + (cs.length - 1)) [] = "R".toList := by
    rw [show 2 + (cs.length - 1) = cs.length + 0 + 1 by omega, hposD 0, hrestdef]
    rfl
  have h11 : ((['1'] : Str) :: (cs ++ rest)).getD (11 + (cs.length - 1)) [] = mfS := by
    rw [show 11 + (cs.length - 1) = cs.length + 9 + 1 by omega, hposD 9, hrestdef]
    rfl
  have h13 : ((['1'] : Str) :: (cs ++ rest)).getD (13 + (cs.length - 1)) [] = utS := by
    rw [show 13 + (cs.length - 1) = cs.length + 11 + 1 by omega, hposD 11, hrestdef]
    rfl
  have h14 : ((['1'] : Str) :: (cs ++ rest)).getD (14 + (cs.length - 1)) [] = stS := by
    rw [show 14 + (cs.length - 1) = cs.length + 12 + 1 by omega, hposD 12, hrestdef]
    rfl
  have h21 : ((['1'] : Str) :: (cs ++ rest)).getD (21 + (cs.length - 1)) [] = sttS := by
    rw [show 21 + (cs.length - 1) = cs.length + 19 + 1 by omega, hposD 19, hrestdef]
    rfl
  have hfront : ¬(cppFront B ≠ '(') := by
    rw [hB]
    simp [cppFront]
  have hback : ¬(cppBack B ≠ ')') := by
    simp [cppBack, hlastB]
  have hsize : ¬(((['1'] : Str) :: (cs ++ rest)).length < 22 + (cs.length - 1)) := by
    rw [hlen]
    omega
  have hcomm : ((B.drop 1).dropLast : Str) = comm := by
    rw [hB]
    show ((comm ++ [')']).dropLast : Str) = comm
    exact List.dropLast_concat
  simp only [parsePidStatLine, hCF, hFields, hfront, hback, hsize, if_false, h2, h11,
    h13, h14, h21, hmf, hut, hst, hstt, hcomm]

/-- Witness for `c3_comm_round_trip_amended`: scenario S2 of the spec —
the comm `"my proc"` (a space inside the parentheses) round-trips with
`major_faults = 7`, `utime + stime = 30` and `starttime = 500`. -/
theorem c3_comm_round_trip_amended_witness :
    parsePidStatLine (synthStatLine "my proc".toList
        (synthRest "7".toList "10".toList "20".toList "500".toList)) =
      some { comm := "my proc".toList, state := "R".toList, majorFaults := 7,
             cpuTimeMillis := 30, startTimeMillis := 500 } :=
  c3_comm_round_trip_amended "my proc".toList "7".toList "10".toList "20".toList
    "500".toList 7 10 20 500 (by decide) (by decide) (by decide) (by decide) (by decide)
    (by decide) (by decide) (by decide) (by decide)

end UidProc
